import Mathlib

/-!
# libxcam: YUV pipe kernel argument binding and the smart-analysis result inbox

A shallow embedding of

* `CLYuvPipeImageKernel` (`xcore/cl_yuv_pipe_handler.cpp`): constructor,
  `set_macc`, `set_matrix`, `set_tnr_rgb_config`, `set_tnr_yuv_config`,
  `set_tnr_enable`, `prepare_arguments`, `post_execute`;
* `X3aAnalyzeTuner` (`xcore/x3a_analyze_tuner.cpp`): constructor, `add_handler`,
  `pre_3a_analyze`, `post_3a_analyze`, `x3a_calculation_done`;
* `XCamSmartAnalyerContext` and `xcam_get_results`
  (`smartlib/sample_smart_analysis.cpp`).

Conventions.  A `SmartPtr<T>` is an `Option T` (`none` is the null pointer).
A call either returns or ends in a `Fault`; `XCAM_ASSERT` is defined in a
header that is not among the sources, so whether assertions are compiled in is
the parameter `asserts`.  Float-valued members are carried as rational numbers
holding the literal written in the source: the embedded functions only store
them and pass their addresses on, they never compute with them.
-/

namespace XCam

/-- Return codes used by the embedded functions. -/
inductive XCamReturn
  | XCAM_RETURN_NO_ERROR
  | XCAM_RETURN_ERROR_PARAM
  | XCAM_RETURN_ERROR_MEM
  deriving DecidableEq

/-- Ways in which a call ends without returning to its caller. -/
inductive Fault
  /-- an `XCAM_ASSERT` whose condition is false, with assertions compiled in -/
  | assertion
  /-- a member access through a null `SmartPtr` -/
  | null_deref
  deriving DecidableEq

/-- The members of `VideoBufferInfo` that `prepare_arguments` reads (both `uint32_t`). -/
structure VideoBufferInfo where
  width : Nat
  aligned_height : Nat
  deriving DecidableEq

/-- A DRM buffer object as seen by the kernel: its identity, its video info and
whether a GPU image can be made of it. -/
structure DrmBoBuffer where
  handle : Nat
  video_info : VideoBufferInfo
  gpu_visible : Bool
  deriving DecidableEq

/-- A `CLImage`: its `cl_mem` identity and the answer of `is_valid ()`. -/
structure CLImage where
  mem_id : Nat
  valid : Bool
  deriving DecidableEq

/-- The method `CLImage::is_valid`. -/
def CLImage.is_valid (i : CLImage) : Bool := i.valid

/-- The method `CLImage::get_mem_id`. -/
def CLImage.get_mem_id (i : CLImage) : Nat := i.mem_id

/-- Modelled from the spec: the constructor `CLVaImage (context, buffer)` lives in
`cl_memory.cpp`, which is not among the sources.  Following the spec ("if input or
output buffer handle is invalid, binding fails with a memory-unavailable error",
"memory-unavailable (buffer not GPU-visible)") the image of a buffer is valid exactly
when the buffer is GPU-visible, and the image of a null buffer is invalid. -/
def CLVaImage.new : Option DrmBoBuffer → CLImage
  | some b => { mem_id := b.handle, valid := b.gpu_visible }
  | none => { mem_id := 0, valid := false }

/-- A `CLBuffer` created with `CL_MEM_USE_HOST_PTR`: its byte size and the host array it wraps. -/
structure CLBuffer where
  size : Nat
  host : List Rat
  deriving DecidableEq

/-- The constructor `CLBuffer (context, sizeof(float) * count, flags, host)` for a host
array of `count` floats. -/
def CLBuffer.new (host : List Rat) : CLBuffer := { size := 4 * host.length, host := host }

/-- A `CLArgument`, given by what its `arg_adress` points at when the kernel is
dispatched.  The `arg_size` member is the `sizeof` of the pointee and is fixed by the
constructor: `sizeof (cl_mem)` for `mem` and `buf`, 4 for `u32` and `f32`. -/
inductive CLArgument
  /-- the `cl_mem` of an image -/
  | mem (id : Nat)
  /-- the `cl_mem` of a buffer -/
  | buf (b : CLBuffer)
  /-- a `uint32_t` member -/
  | u32 (v : Nat)
  /-- a `float` member -/
  | f32 (v : Rat)
  deriving DecidableEq

/-- The members of `CLWorkSize` that `prepare_arguments` writes. -/
structure CLWorkSize where
  dim : Nat
  global0 : Nat
  global1 : Nat
  local0 : Nat
  local1 : Nat
  deriving DecidableEq

/-- Modelled from the spec: the constant `XCAM_DEFAULT_IMAGE_DIM` is defined in a
header that is not among the sources; the spec gives the work size as 2-D. -/
def XCAM_DEFAULT_IMAGE_DIM : Nat := 2

/-- The global array `default_matrix`. -/
def default_matrix : List Rat :=
  [0.299, 0.587, 0.114, -0.14713, -0.28886, 0.436, 0.615, -0.51499, -0.10001]

/-- The global array `default_macc`. -/
def default_macc : List Rat :=
  [ 1.000000, 0.000000, 0.000000, 1.000000, 1.000000, 0.000000, 0.000000, 1.000000,
    1.000000, 0.000000, 0.000000, 1.000000, 1.000000, 0.000000, 0.000000, 1.000000,
    1.000000, 0.000000, 0.000000, 1.000000, 1.000000, 0.000000, 0.000000, 1.000000,
    1.000000, 0.000000, 0.000000, 1.000000, 1.000000, 0.000000, 0.000000, 1.000000,
    1.000000, 0.000000, 0.000000, 1.000000, 1.000000, 0.000000, 0.000000, 1.000000,
    1.000000, 0.000000, 0.000000, 1.000000, 1.000000, 0.000000, 0.000000, 1.000000,
    1.000000, 0.000000, 0.000000, 1.000000, 1.000000, 0.000000, 0.000000, 1.000000,
    1.000000, 0.000000, 0.000000, 1.000000, 1.000000, 0.000000, 0.000000, 1.000000 ]

/-- The data members of `CLYuvPipeImageKernel`. -/
structure CLYuvPipeImageKernel where
  _image_in : Option CLImage
  _image_out : Option CLImage
  _image_out_prev : Option CLImage
  _matrix_buffer : Option CLBuffer
  _macc_table_buffer : Option CLBuffer
  _image_in_list : List CLImage
  _vertical_offset : Nat
  _gain_rgb : Rat
  _gain_yuv : Rat
  _thr_r : Rat
  _thr_g : Rat
  _thr_b : Rat
  _thr_y : Rat
  _thr_uv : Rat
  _framecount : Nat
  _enable_tnr_rgb : Nat
  _enable_tnr_yuv : Nat
  _enable_tnr_yuv_state : Nat
  _macc_table : List Rat
  _rgbtoyuv_matrix : List Rat
  deriving DecidableEq

/-- The constructor.  `_enable_tnr_yuv_state` is absent from the initialiser list, so a
fresh kernel holds an indeterminate value `uninit` there; the smart pointers are null and
the frame history is empty. -/
def CLYuvPipeImageKernel.new (uninit : Nat) : CLYuvPipeImageKernel :=
  { _image_in := none
    _image_out := none
    _image_out_prev := none
    _matrix_buffer := none
    _macc_table_buffer := none
    _image_in_list := []
    _vertical_offset := 0
    _gain_rgb := 0.0
    _gain_yuv := 1.0
    _thr_r := 0.064
    _thr_g := 0.045
    _thr_b := 0.073
    _thr_y := 0.05
    _thr_uv := 0.05
    _framecount := 2
    _enable_tnr_rgb := 0
    _enable_tnr_yuv := 0
    _enable_tnr_yuv_state := uninit
    _macc_table := default_macc
    _rgbtoyuv_matrix := default_matrix }

/-- The method `set_tnr_enable`. -/
def set_tnr_enable (k : CLYuvPipeImageKernel) (enable_tnr_rgb enable_tnr_yuv : Bool) :
    CLYuvPipeImageKernel × Bool :=
  ({ k with
      _enable_tnr_rgb := if enable_tnr_rgb then 1 else 0
      _enable_tnr_yuv := if enable_tnr_yuv then 1 else 0 }, true)

/-- The members of `XCam3aResultMaccMatrix` that `set_macc` reads.  The entries of `table`
stand for the values `(float) macc.table[i]`: the kernel reads them through that
conversion only. -/
structure XCam3aResultMaccMatrix where
  table : List Rat
  deriving DecidableEq

/-- The members of `XCam3aResultColorMatrix` that `set_matrix` reads, the entries of
`matrix` standing for the values `(float) matrix.matrix[i]`. -/
structure XCam3aResultColorMatrix where
  matrix : List Rat
  deriving DecidableEq

/-- The members of `XCam3aResultTemporalNoiseReduction` that the two configuration setters
read: `gain` and `threshold[0]`, `threshold[1]`, `threshold[2]`, each standing for its
value converted to `float`. -/
structure XCam3aResultTemporalNoiseReduction where
  gain : Rat
  threshold_0 : Rat
  threshold_1 : Rat
  threshold_2 : Rat
  deriving DecidableEq

/-- The loop `for (i = 0; i < n; i++) dst[i] = (float) src[i];` of `set_macc` and
`set_matrix`, on the member array `dst`. -/
def copy_floats (src : List Rat) : Nat → List Rat → List Rat
  | 0, dst => dst
  | i + 1, dst => (copy_floats src i dst).set i (src.getD i 0)

/-- The method `set_macc`.  The bound `XCAM_CHROMA_AXIS_SIZE * XCAM_CHROMA_MATRIX_SIZE` of
its loop is defined outside the sources; it is the number of entries of the member array
`_macc_table`. -/
def set_macc (k : CLYuvPipeImageKernel) (macc : XCam3aResultMaccMatrix) :
    CLYuvPipeImageKernel × Bool :=
  ({ k with _macc_table := copy_floats macc.table k._macc_table.length k._macc_table }, true)

/-- The method `set_matrix`.  The bound `XCAM_COLOR_MATRIX_SIZE` of its loop is defined
outside the sources; it is the number of entries of the member array
`_rgbtoyuv_matrix`. -/
def set_matrix (k : CLYuvPipeImageKernel) (matrix : XCam3aResultColorMatrix) :
    CLYuvPipeImageKernel × Bool :=
  ({ k with
      _rgbtoyuv_matrix :=
        copy_floats matrix.matrix k._rgbtoyuv_matrix.length k._rgbtoyuv_matrix }, true)

/-- The method `set_tnr_rgb_config`. -/
def set_tnr_rgb_config (k : CLYuvPipeImageKernel)
    (config : XCam3aResultTemporalNoiseReduction) : CLYuvPipeImageKernel × Bool :=
  ({ k with
      _gain_rgb := config.gain
      _thr_r := config.threshold_0
      _thr_g := config.threshold_1
      _thr_b := config.threshold_2 }, true)

/-- The method `set_tnr_yuv_config`. -/
def set_tnr_yuv_config (k : CLYuvPipeImageKernel)
    (config : XCam3aResultTemporalNoiseReduction) : CLYuvPipeImageKernel × Bool :=
  ({ k with
      _gain_yuv := config.gain
      _thr_y := config.threshold_0
      _thr_uv := config.threshold_1 }, true)

/-- The loop `while (_image_in_list.size () < 4) _image_in_list.push_back (_image_in);`
with an iteration budget. -/
def fill_loop : Nat → List CLImage → CLImage → List CLImage
  | 0, l, _ => l
  | fuel + 1, l, img => if l.length < 4 then fill_loop fuel (l ++ [img]) img else l

/-- Lines 121-128 of `prepare_arguments`: the admission of `_image_in` into
`_image_in_list`.  Four iterations always let the loop run to its exit (`fill_loop_exit`). -/
def admit_frame (l : List CLImage) (img : CLImage) : List CLImage :=
  if l.length < 4 then fill_loop 4 l img else l.tail ++ [img]

/-- The store `args[pos] = a` into the caller's argument array, of which the entries
written so far are kept. -/
def write_arg (args : List CLArgument) (pos : Nat) (a : CLArgument) : List CLArgument :=
  if pos < args.length then args.set pos a else args ++ [a]

/-- The loop of lines 180-185 over `_image_in_list`; `index` is a `uint8_t`. -/
def bind_history : List CLImage → List CLArgument → Nat → List CLArgument × Nat
  | [], args, index => (args, index)
  | it :: rest, args, index =>
      bind_history rest (write_arg args (15 + index) (.mem it.get_mem_id)) ((index + 1) % 256)

/-- What a successful `prepare_arguments` hands back through its reference parameters. -/
structure Binding where
  args : List CLArgument
  arg_count : Nat
  work_size : CLWorkSize
  deriving DecidableEq

/-- Lines 132-140 of `prepare_arguments`: the first-frame override of the YUV flag. -/
def first_frame_override (k : CLYuvPipeImageKernel) : CLYuvPipeImageKernel :=
  match k._image_out_prev with
  | none =>
      { k with
          _image_out_prev := k._image_out
          _enable_tnr_yuv_state := k._enable_tnr_yuv
          _enable_tnr_yuv := 0 }
  | some _ =>
      if k._enable_tnr_yuv = 0 then { k with _enable_tnr_yuv := k._enable_tnr_yuv_state } else k

/-- Lines 112-130 of `prepare_arguments`: the images and buffers of this frame, the
admission into the history and the vertical offset. -/
def load_frame (k : CLYuvPipeImageKernel) (input : Option DrmBoBuffer) (out : DrmBoBuffer) :
    CLYuvPipeImageKernel :=
  { k with
      _image_in := some (CLVaImage.new input)
      _image_out := some (CLVaImage.new (some out))
      _matrix_buffer := some (CLBuffer.new k._rgbtoyuv_matrix)
      _macc_table_buffer := some (CLBuffer.new k._macc_table)
      _image_in_list := admit_frame k._image_in_list (CLVaImage.new input)
      _vertical_offset := out.video_info.aligned_height }

/-- Lines 148-193 of `prepare_arguments`: the argument array, the argument count and the
work size, for the current output image, previous output image and the two buffers. -/
def bind_arguments (k : CLYuvPipeImageKernel) (image_out image_out_prev : CLImage)
    (matrix_buffer macc_table_buffer : CLBuffer) (video_info : VideoBufferInfo) : Binding :=
  let fixed : List CLArgument :=
    [ .mem image_out.get_mem_id,
      .mem image_out_prev.get_mem_id,
      .u32 k._vertical_offset,
      .buf matrix_buffer,
      .buf macc_table_buffer,
      .u32 k._framecount,
      .f32 k._gain_rgb,
      .f32 k._thr_r,
      .f32 k._thr_g,
      .f32 k._thr_b,
      .f32 k._gain_yuv,
      .f32 k._thr_y,
      .f32 k._thr_uv,
      .u32 k._enable_tnr_rgb,
      .u32 k._enable_tnr_yuv ]
  let r := bind_history k._image_in_list fixed 0
  { args := r.1
    arg_count := 15 + r.2
    work_size :=
      { dim := XCAM_DEFAULT_IMAGE_DIM
        global0 := video_info.width / 2
        global1 := video_info.aligned_height / 2
        local0 := 4
        local1 := 4 } }

/-- The method `prepare_arguments`.  The result is the kernel after the call, the return
code and, on success, what was written to `args`, `arg_count` and `work_size`; a failed
call leaves those three untouched (`none`). -/
def prepare_arguments (asserts : Bool) (k : CLYuvPipeImageKernel)
    (input output : Option DrmBoBuffer) :
    Except Fault (CLYuvPipeImageKernel × XCamReturn × Option Binding) :=
  match output with
  | none => .error .null_deref
  | some out =>
    let k1 := first_frame_override (load_frame k input out)
    match k1._image_in, k1._image_out, k1._image_out_prev, k1._matrix_buffer,
        k1._macc_table_buffer with
    | some image_in, some image_out, some image_out_prev, some matrix_buffer,
        some macc_table_buffer =>
      if image_in.is_valid && image_out.is_valid then
        .ok (k1, .XCAM_RETURN_NO_ERROR,
          some (bind_arguments k1 image_out image_out_prev matrix_buffer macc_table_buffer
            out.video_info))
      else if asserts then .error .assertion
      else .ok (k1, .XCAM_RETURN_ERROR_MEM, none)
    | _, _, _, _, _ => .error .null_deref

/-- The method `post_execute`. -/
def post_execute (k : CLYuvPipeImageKernel) : Except Fault (CLYuvPipeImageKernel × XCamReturn) :=
  match k._image_out with
  | none => .error .null_deref
  | some image_out =>
    let k1 := if image_out.is_valid then { k with _image_out_prev := k._image_out } else k
    .ok ({ k1 with
            _image_in := none
            _image_out := none
            _matrix_buffer := none
            _macc_table_buffer := none }, .XCAM_RETURN_NO_ERROR)

/-- One call made on a kernel by its owner: any of the methods of the kernel that change
or read its state. -/
inductive Call
  | set_tnr_enable (enable_tnr_rgb enable_tnr_yuv : Bool)
  | prepare_arguments (input output : Option DrmBoBuffer)
  | post_execute
  | set_macc (macc : XCam3aResultMaccMatrix)
  | set_matrix (matrix : XCam3aResultColorMatrix)
  | set_tnr_rgb_config (config : XCam3aResultTemporalNoiseReduction)
  | set_tnr_yuv_config (config : XCam3aResultTemporalNoiseReduction)
  deriving DecidableEq

/-- The kernel after one call, or the fault that ended it. -/
def step (asserts : Bool) (k : CLYuvPipeImageKernel) : Call → Except Fault CLYuvPipeImageKernel
  | .set_tnr_enable rgb yuv => .ok (set_tnr_enable k rgb yuv).1
  | .prepare_arguments input output =>
      match prepare_arguments asserts k input output with
      | .ok r => .ok r.1
      | .error f => .error f
  | .post_execute =>
      match post_execute k with
      | .ok r => .ok r.1
      | .error f => .error f
  | .set_macc macc => .ok (set_macc k macc).1
  | .set_matrix matrix => .ok (set_matrix k matrix).1
  | .set_tnr_rgb_config config => .ok (set_tnr_rgb_config k config).1
  | .set_tnr_yuv_config config => .ok (set_tnr_yuv_config k config).1

/-- The kernel after a sequence of calls, the first call of the list made first. -/
def run (asserts : Bool) (k : CLYuvPipeImageKernel) : List Call → Except Fault CLYuvPipeImageKernel
  | [] => .ok k
  | c :: cs =>
      match step asserts k c with
      | .ok k1 => run asserts k1 cs
      | .error f => .error f

/-- The frames admitted by a sequence of calls: the input image of every
`prepare_arguments` call, in call order. -/
def admitted : List Call → List CLImage
  | [] => []
  | .prepare_arguments input _ :: cs => CLVaImage.new input :: admitted cs
  | _ :: cs => admitted cs

/-- A buffer of a 1920x1080 stream (aligned height 1088) with the given identity and
GPU visibility, for concrete runs. -/
def sample_buffer (handle : Nat) (gpu_visible : Bool) : DrmBoBuffer :=
  { handle := handle
    video_info := { width := 1920, aligned_height := 1088 }
    gpu_visible := gpu_visible }

/-- The previous-output image in place once lines 112-140 have run. -/
def prev_after (k : CLYuvPipeImageKernel) (out : DrmBoBuffer) : CLImage :=
  match k._image_out_prev with
  | none => CLVaImage.new (some out)
  | some p => p

/-- The calls of the first four frames on a kernel, for concrete runs: each frame is bound
and then post-executed, and the flags are set after the first frame. -/
def four_frames : List Call :=
  [ .prepare_arguments (some (sample_buffer 1 true)) (some (sample_buffer 11 true)),
    .post_execute,
    .set_tnr_enable true true,
    .prepare_arguments (some (sample_buffer 2 true)) (some (sample_buffer 12 true)),
    .post_execute,
    .prepare_arguments (some (sample_buffer 3 true)) (some (sample_buffer 13 true)),
    .post_execute,
    .prepare_arguments (some (sample_buffer 4 true)) (some (sample_buffer 14 true)),
    .post_execute ]

/-- Calls that give every tunable of the kernel a value of its own, for concrete runs. -/
def tuning_calls : List Call :=
  [ .set_tnr_rgb_config { gain := 6, threshold_0 := 7, threshold_1 := 8, threshold_2 := 9 },
    .set_tnr_yuv_config { gain := 10, threshold_0 := 11, threshold_1 := 12, threshold_2 := 13 },
    .set_matrix { matrix := [21, 22, 23, 24, 25, 26, 27, 28, 29] },
    .set_macc { table := List.replicate 64 3 } ]

/-- The YUV flag most recently requested through `set_tnr_enable` by a sequence of calls,
`init` being the request in force before it (0 for a fresh kernel, from the constructor). -/
def requested (init : Nat) : List Call → Nat
  | [] => init
  | .set_tnr_enable _ yuv :: cs => requested (if yuv then 1 else 0) cs
  | _ :: cs => requested init cs

/-- The state of the YUV flag once the first `prepare_arguments` call was made: a previous
output is in place, `s` is the flag saved by the first call, and the flag that the next
call binds (a zero flag is replaced by `s`) is the larger of `s` and the request `req`. -/
def Warm (s req : Nat) (k : CLYuvPipeImageKernel) : Prop :=
  k._image_out_prev.isSome = true
  ∧ k._enable_tnr_yuv_state = s
  ∧ (if k._enable_tnr_yuv = 0 then s else k._enable_tnr_yuv) = max req s

/-! ## The smart-analysis context and its export call -/

/-- A 3A result as held in an `X3aResultList` through a `SmartPtr<X3aResult>`: its type
tag and the identity of the object pointed to. -/
structure X3aResult where
  type : Nat
  ident : Nat
  deriving DecidableEq

/-- The type `X3aResultList`, a `std::list` of results. -/
abbrev X3aResultList := List X3aResult

/-- A result head handed to the caller of the export call: its type tag and the identity
of the allocation. -/
structure XCam3aResultHead where
  type : Nat
  ident : Nat
  deriving DecidableEq

/-- The data member of `XCamSmartAnalyerContext` that the result calls touch, the inbox
`_results`; every access to it is made with `_result_mutex` held. -/
structure XCamSmartAnalyerContext where
  _results : X3aResultList
  deriving DecidableEq

/-- The constructor: the inbox is default-constructed, hence empty. -/
def XCamSmartAnalyerContext.new : XCamSmartAnalyerContext := { _results := [] }

/-- The method `XCamSmartAnalyerContext::x3a_calculation_done`. -/
def x3a_calculation_done (ctx : XCamSmartAnalyerContext) (results : X3aResultList) :
    XCamSmartAnalyerContext :=
  { ctx with _results := ctx._results ++ results }

/-- The call `results.assign (first, last)` of `std::list`: the old contents go. -/
def X3aResultList.assign (_results : X3aResultList) (range : X3aResultList) : X3aResultList :=
  range

/-- The method `XCamSmartAnalyerContext::get_results`: the context after the call, the
caller's list after the call and the returned `uint32_t`. -/
def get_results (ctx : XCamSmartAnalyerContext) (results : X3aResultList) :
    XCamSmartAnalyerContext × X3aResultList × Nat :=
  ({ ctx with _results := [] }, X3aResultList.assign results ctx._results,
    ctx._results.length % 2 ^ 32)

/-- The loop `for (i = 0; i < result_count; ++i) results[i] = res_array[i];` on the
caller's array `results`. -/
def copy_results (res_array results : List (Option XCam3aResultHead)) :
    Nat → List (Option XCam3aResultHead)
  | 0 => results
  | i + 1 => (copy_results res_array results i).set i (res_array.getD i none)

/-- The function `xcam_get_results`.  The capacity `XCAM_3A_MAX_RESULT_COUNT` and the
function `translate_3a_results_to_xcam` are declared outside the sources and are
parameters: `translate rs max` is the list of heads that the translation stores from
index 0 on into the cleared `res_array`, its length being the count it returns.  The
result is the context after the call, the return code, the caller's array and
`*res_count`. -/
def xcam_get_results (asserts : Bool) (XCAM_3A_MAX_RESULT_COUNT : Nat)
    (translate_3a_results_to_xcam : X3aResultList → Nat → List XCam3aResultHead)
    (ctx : XCamSmartAnalyerContext) (results : List (Option XCam3aResultHead)) :
    Except Fault
      (XCamSmartAnalyerContext × XCamReturn × List (Option XCam3aResultHead) × Nat) :=
  let drained := get_results ctx []
  let analysis_results := drained.2.1
  let result_count := drained.2.2
  if result_count = 0 then
    .ok (drained.1, .XCAM_RETURN_NO_ERROR, results, 0)
  else if asserts && !decide (result_count < XCAM_3A_MAX_RESULT_COUNT) then
    .error .assertion
  else
    let heads := translate_3a_results_to_xcam analysis_results XCAM_3A_MAX_RESULT_COUNT
    let res_array : List (Option XCam3aResultHead) :=
      heads.map some ++ List.replicate (XCAM_3A_MAX_RESULT_COUNT - heads.length) none
    let result_count := heads.length % 2 ^ 32
    if asserts && !decide (result_count > 0) then .error .assertion
    else
      .ok (drained.1, .XCAM_RETURN_NO_ERROR, copy_results res_array results result_count,
        result_count)

/-- One access to the inbox of a context: a delivery by the analysis callback or a drain
by the consumer. -/
inductive InboxCall
  | x3a_calculation_done (results : X3aResultList)
  | get_results
  deriving DecidableEq

/-- The context after a sequence of inbox accesses, each made as one step, together with
the lists handed out by the drains, in order. -/
def inbox_run (ctx : XCamSmartAnalyerContext) :
    List InboxCall → XCamSmartAnalyerContext × List X3aResultList
  | [] => (ctx, [])
  | .x3a_calculation_done results :: cs => inbox_run (x3a_calculation_done ctx results) cs
  | .get_results :: cs =>
      let drained := get_results ctx []
      let later := inbox_run drained.1 cs
      (later.1, drained.2.1 :: later.2)

/-- The lists delivered by a sequence of inbox accesses, in order. -/
def delivered : List InboxCall → List X3aResultList
  | [] => []
  | .x3a_calculation_done results :: cs => results :: delivered cs
  | .get_results :: cs => delivered cs

/-- An inbox content of `n` results for concrete runs, numbered from 0. -/
def sample_results (n : Nat) : X3aResultList :=
  (List.range n).map (fun i => { type := 0, ident := i })

/-! ## The analyze tuner -/

/-- A statistics snapshot held through a `SmartPtr<X3aStats>`, given by its identity. -/
structure X3aStats where
  ident : Nat
  deriving DecidableEq

/-- The underlying engine `X3aAnalyzerAiq`, given by its identity; its code is outside
the sources. -/
structure X3aAnalyzerAiq where
  ident : Nat
  deriving DecidableEq

/-- A tuning handler.  `X3aCiqTuningHandler::analyze (X3aResultList &)` is defined
outside the sources; a handler is given by what its `analyze` makes of the list it is
handed by reference (the value `analyze` returns is discarded by its caller). -/
structure X3aCiqTuningHandler where
  analyze : X3aResultList → X3aResultList

/-- The data members of `X3aAnalyzeTuner`. -/
structure X3aAnalyzeTuner where
  _aiq_analyzer : Option X3aAnalyzerAiq
  _stats : Option X3aStats
  _results : X3aResultList
  _handlers : List (Option X3aCiqTuningHandler)

/-- The constructor.  The engine is created only when `HAVE_IA_AIQ` is set, so the engine
pointer of a fresh tuner is the parameter `aiq`; the other members are default-constructed.
With `HAVE_IA_AIQ` the tuner registers itself as the results callback of the engine and
puts it in synchronous mode. -/
def X3aAnalyzeTuner.new (aiq : Option X3aAnalyzerAiq) : X3aAnalyzeTuner :=
  { _aiq_analyzer := aiq, _stats := none, _results := [], _handlers := [] }

/-- The method `X3aAnalyzeTuner::add_handler`. -/
def X3aAnalyzeTuner.add_handler (asserts : Bool) (t : X3aAnalyzeTuner)
    (handler : Option X3aCiqTuningHandler) : Except Fault (X3aAnalyzeTuner × Bool) :=
  if asserts && handler.isNone then .error .assertion
  else .ok ({ t with _handlers := t._handlers ++ [handler] }, true)

/-- The method `X3aAnalyzeTuner::pre_3a_analyze`. -/
def X3aAnalyzeTuner.pre_3a_analyze (t : X3aAnalyzeTuner) (stats : Option X3aStats) :
    X3aAnalyzeTuner × XCamReturn :=
  (match stats with
    | some s => { t with _stats := some s }
    | none => t,
   .XCAM_RETURN_NO_ERROR)

/-- The method `X3aAnalyzeTuner::x3a_calculation_done`, the results callback of the tuner:
`_results.clear ()` and then `_results.assign (results.begin (), results.end ())`. -/
def X3aAnalyzeTuner.x3a_calculation_done (t : X3aAnalyzeTuner) (results : X3aResultList) :
    X3aAnalyzeTuner :=
  { t with _results := X3aResultList.assign [] results }

/-- What the engine does during one `push_3a_stats` call, which is code outside the
sources: the code it returns and the result lists it delivers to its results callback
before it returns, in order (none when the engine delivers at another time). -/
structure PushOutcome where
  ret : XCamReturn
  deliveries : List X3aResultList
  deriving DecidableEq

/-- The loop of lines 209-213 of `post_3a_analyze` over `_handlers`. -/
def analyze_all : List (Option X3aCiqTuningHandler) → X3aResultList → Except Fault X3aResultList
  | [], results => .ok results
  | none :: _, _ => .error .null_deref
  | some handler :: rest, results => analyze_all rest (handler.analyze results)

/-- The method `X3aAnalyzeTuner::post_3a_analyze`, for the given conduct `push` of the
engine in `push_3a_stats`: the tuner after the call, the return code and the caller's
list `results` after the call. -/
def X3aAnalyzeTuner.post_3a_analyze (asserts : Bool) (t : X3aAnalyzeTuner) (push : PushOutcome)
    (results : X3aResultList) : Except Fault (X3aAnalyzeTuner × XCamReturn × X3aResultList) :=
  match t._aiq_analyzer with
  | none => if asserts then .error .assertion else .error .null_deref
  | some _ =>
    let t1 := push.deliveries.foldl X3aAnalyzeTuner.x3a_calculation_done t
    let ret := push.ret
    let t2 := { t1 with _stats := none }
    let results1 := results ++ t2._results
    let t3 := { t2 with _results := [] }
    match analyze_all t3._handlers results1 with
    | .ok results2 => .ok (t3, ret, results2)
    | .error f => .error f

/-- The tuner after the calls `add_handler (h)` for the handlers `h` of a list, in the
order of the list. -/
def add_handlers (asserts : Bool) (t : X3aAnalyzeTuner) :
    List (Option X3aCiqTuningHandler) → Except Fault X3aAnalyzeTuner
  | [] => .ok t
  | handler :: rest =>
      match X3aAnalyzeTuner.add_handler asserts t handler with
      | .ok r => add_handlers asserts r.1 rest
      | .error f => .error f

/-- The composition of a chain of handlers on a list: the first handler of the chain is
applied first and each handler is applied to what the one before it made. -/
def chain (hs : List X3aCiqTuningHandler) (results : X3aResultList) : X3aResultList :=
  hs.foldl (fun l h => h.analyze l) results

/-- A handler that appends one result of the given identity, for concrete runs. -/
def appending_handler (ident : Nat) : X3aCiqTuningHandler :=
  { analyze := fun l => l ++ [{ type := 1, ident := ident }] }

/-- A tuner with an engine, one pending result and one handler, for concrete runs. -/
def sample_tuner : X3aAnalyzeTuner :=
  { _aiq_analyzer := some { ident := 0 }
    _stats := none
    _results := [{ type := 0, ident := 7 }]
    _handlers := [some (appending_handler 9)] }

/-! # Theorems -/

/-! ## Structure of a `prepare_arguments` call -/

theorem fill_loop_exit (l : List CLImage) (img : CLImage) :
    ¬ (fill_loop 4 l img).length < 4 := by
  simp only [fill_loop]
  split_ifs <;> simp_all

theorem first_frame_override_history (k : CLYuvPipeImageKernel) :
    (first_frame_override k)._image_in_list = k._image_in_list := by
  unfold first_frame_override
  split
  · rfl
  · split_ifs <;> rfl

theorem first_frame_override_prev (k : CLYuvPipeImageKernel) :
    (first_frame_override k)._image_out_prev
      = match k._image_out_prev with
        | none => k._image_out
        | some p => some p := by
  unfold first_frame_override
  split
  · rfl
  · split_ifs <;> simp_all

theorem first_frame_override_frame (k : CLYuvPipeImageKernel) :
    (first_frame_override k)._image_in = k._image_in
    ∧ (first_frame_override k)._image_out = k._image_out
    ∧ (first_frame_override k)._matrix_buffer = k._matrix_buffer
    ∧ (first_frame_override k)._macc_table_buffer = k._macc_table_buffer
    ∧ (first_frame_override k)._vertical_offset = k._vertical_offset := by
  unfold first_frame_override
  split
  · simp
  · split_ifs <;> simp

theorem prev_after_spec (k : CLYuvPipeImageKernel) (input : Option DrmBoBuffer)
    (out : DrmBoBuffer) :
    (first_frame_override (load_frame k input out))._image_out_prev
      = some (prev_after k out) := by
  rw [first_frame_override_prev]
  unfold prev_after load_frame
  cases h : k._image_out_prev <;> simp [h]

/-- What `prepare_arguments` does, in closed form, for a non-null output buffer. -/
theorem prepare_arguments_some (asserts : Bool) (k : CLYuvPipeImageKernel)
    (input : Option DrmBoBuffer) (out : DrmBoBuffer) :
    prepare_arguments asserts k input (some out)
      = if (CLVaImage.new input).is_valid && (CLVaImage.new (some out)).is_valid then
          .ok (first_frame_override (load_frame k input out), .XCAM_RETURN_NO_ERROR,
            some (bind_arguments (first_frame_override (load_frame k input out))
              (CLVaImage.new (some out)) (prev_after k out)
              (CLBuffer.new k._rgbtoyuv_matrix) (CLBuffer.new k._macc_table) out.video_info))
        else if asserts then .error .assertion
        else .ok (first_frame_override (load_frame k input out),
          .XCAM_RETURN_ERROR_MEM, none) := by
  have hf := first_frame_override_frame (load_frame k input out)
  have hp := prev_after_spec k input out
  obtain ⟨h1, h2, h3, h4, _⟩ := hf
  have e1 : (first_frame_override (load_frame k input out))._image_in
      = some (CLVaImage.new input) := by rw [h1]; rfl
  have e2 : (first_frame_override (load_frame k input out))._image_out
      = some (CLVaImage.new (some out)) := by rw [h2]; rfl
  have e3 : (first_frame_override (load_frame k input out))._matrix_buffer
      = some (CLBuffer.new k._rgbtoyuv_matrix) := by rw [h3]; rfl
  have e4 : (first_frame_override (load_frame k input out))._macc_table_buffer
      = some (CLBuffer.new k._macc_table) := by rw [h4]; rfl
  simp only [prepare_arguments, e1, e2, e3, e4, hp]

/-- The frame history after a returning `prepare_arguments` call is the admission of
the input image into the history held before. -/
theorem prepare_arguments_history {asserts : Bool} {k k1 : CLYuvPipeImageKernel}
    {input output : Option DrmBoBuffer} {r : XCamReturn × Option Binding}
    (h : prepare_arguments asserts k input output = .ok (k1, r)) :
    k1._image_in_list = admit_frame k._image_in_list (CLVaImage.new input) := by
  cases output with
  | none => simp [prepare_arguments] at h
  | some out =>
    rw [prepare_arguments_some] at h
    have hl : (first_frame_override (load_frame k input out))._image_in_list
        = admit_frame k._image_in_list (CLVaImage.new input) := by
      rw [first_frame_override_history]; rfl
    split_ifs at h
    · simp only [Except.ok.injEq, Prod.mk.injEq] at h
      rw [← h.1, hl]
    · simp only [Except.ok.injEq, Prod.mk.injEq] at h
      rw [← h.1, hl]

/-! ## The frame history of a run -/

theorem step_history {asserts : Bool} {k k1 : CLYuvPipeImageKernel} {c : Call}
    (h : step asserts k c = .ok k1) :
    k1._image_in_list = (admitted [c]).foldl admit_frame k._image_in_list := by
  cases c with
  | set_tnr_enable rgb yuv =>
    simp only [step, Except.ok.injEq] at h
    subst h
    rfl
  | prepare_arguments input output =>
    simp only [step] at h
    cases hp : prepare_arguments asserts k input output with
    | error f => simp [hp] at h
    | ok r =>
      simp only [hp, Except.ok.injEq] at h
      subst h
      exact prepare_arguments_history hp
  | post_execute =>
    simp only [step, post_execute] at h
    cases ho : k._image_out with
    | none => simp [ho] at h
    | some o =>
      simp only [ho, Except.ok.injEq] at h
      subst h
      simp only [admitted, List.foldl_nil]
      split_ifs <;> rfl
  | _ =>
    simp only [step, Except.ok.injEq] at h
    subst h
    rfl

theorem admitted_cons (c : Call) (cs : List Call) :
    admitted (c :: cs) = admitted [c] ++ admitted cs := by
  cases c <;> simp [admitted]

theorem admitted_append (t u : List Call) : admitted (t ++ u) = admitted t ++ admitted u := by
  induction t with
  | nil => simp [admitted]
  | cons c cs ih =>
    rw [List.cons_append, admitted_cons, ih, admitted_cons c cs, List.append_assoc]

/-- The frame history after a run is the successive admission of the admitted frames. -/
theorem run_history {asserts : Bool} (t : List Call) {k k1 : CLYuvPipeImageKernel}
    (h : run asserts k t = .ok k1) :
    k1._image_in_list = (admitted t).foldl admit_frame k._image_in_list := by
  induction t generalizing k with
  | nil =>
    simp only [run, Except.ok.injEq] at h
    subst h
    rfl
  | cons c cs ih =>
    simp only [run] at h
    cases hs : step asserts k c with
    | error f => simp [hs] at h
    | ok k2 =>
      simp only [hs] at h
      rw [ih h, step_history hs, admitted_cons c cs, List.foldl_append]

theorem admit_frame_nil (f : CLImage) : admit_frame [] f = [f, f, f, f] := rfl

theorem admit_frame_four (a b c d g : CLImage) :
    admit_frame [a, b, c, d] g = [b, c, d, g] := rfl

/-- From a full history on, the history is the last four entries of everything seen. -/
theorem foldl_admit_frame_four (rest : List CLImage) (a b c d : CLImage) :
    rest.foldl admit_frame [a, b, c, d] = ([a, b, c, d] ++ rest).drop rest.length := by
  induction rest generalizing a b c d with
  | nil => rfl
  | cons g rest ih =>
    rw [List.foldl_cons, admit_frame_four, ih]
    simp

/-- The history after admitting `f :: rest` into an empty history. -/
theorem foldl_admit_frame_nil (f : CLImage) (rest : List CLImage) :
    (f :: rest).foldl admit_frame [] = ([f, f, f, f] ++ rest).drop rest.length := by
  rw [List.foldl_cons, admit_frame_nil, foldl_admit_frame_four]

/-- The history once at least four frames were admitted: the last four of them. -/
theorem history_of_many (fs : List CLImage) (h : 4 ≤ fs.length) :
    fs.foldl admit_frame [] = fs.drop (fs.length - 4) := by
  cases fs with
  | nil => simp at h
  | cons f rest =>
    rw [foldl_admit_frame_nil]
    simp only [List.length_cons] at h ⊢
    have h3 : 3 ≤ rest.length := by omega
    obtain ⟨n, hn⟩ : ∃ n, rest.length = n + 3 := ⟨rest.length - 3, by omega⟩
    rw [hn]
    have e : n + 3 + 1 - 4 = n := by omega
    rw [e]
    cases n with
    | zero => simp
    | succ m =>
      simp only [List.cons_append, List.nil_append, List.drop_succ_cons]

/-- The history while at most four frames were admitted: the first frame repeated in the
slots that no later frame has taken yet, then the frames in admission order. -/
theorem history_of_few (f : CLImage) (rest : List CLImage) (h : rest.length + 1 ≤ 4) :
    (f :: rest).foldl admit_frame []
      = List.replicate (4 - (rest.length + 1)) f ++ (f :: rest) := by
  rw [foldl_admit_frame_nil]
  match rest, h with
  | [], _ => rfl
  | [_], _ => rfl
  | [_, _], _ => rfl
  | [_, _, _], _ => rfl
  | _ :: _ :: _ :: _ :: _, h => simp at h

/-- C1 (code defect): on a fresh kernel, after `set_tnr_enable (false, true)`, a first
`prepare_arguments` call, `post_execute` and then `set_tnr_enable (false, false)`, the
first call bound the YUV temporal-filter flag (argument 14) as 0, but the second
`prepare_arguments` call binds it as 1 although the flag most recently requested by the
caller is 0; the kernel then holds 1 in `_enable_tnr_yuv`. -/
theorem C1_disable_request_not_honoured (asserts : Bool) (uninit : Nat) :
    ∃ k1 b1 k2 k3 b3,
      prepare_arguments asserts (set_tnr_enable (.new uninit) false true).1
          (some (sample_buffer 1 true)) (some (sample_buffer 2 true))
        = .ok (k1, .XCAM_RETURN_NO_ERROR, some b1)
      ∧ b1.args[14]? = some (.u32 0)
      ∧ post_execute k1 = .ok (k2, .XCAM_RETURN_NO_ERROR)
      ∧ (set_tnr_enable k2 false false).1._enable_tnr_yuv = 0
      ∧ prepare_arguments asserts (set_tnr_enable k2 false false).1
          (some (sample_buffer 3 true)) (some (sample_buffer 4 true))
        = .ok (k3, .XCAM_RETURN_NO_ERROR, some b3)
      ∧ b3.args[14]? = some (.u32 1)
      ∧ k3._enable_tnr_yuv = 1 :=
  ⟨_, _, _, _, _, rfl, rfl, rfl, rfl, rfl, rfl, rfl⟩

/-- C2: on a fresh kernel, when a `prepare_arguments` call returns after a run that
admitted at least four frames (so that N > 4 frames are admitted in all), the history has
length 4, holds the four most recently admitted frames in admission order, oldest first,
and this admission dropped the oldest entry of the history held before, which was the
fourth most recent of the frames admitted until then. -/
theorem C2_history_holds_last_four (asserts : Bool) (uninit : Nat) (t : List Call)
    (k k1 : CLYuvPipeImageKernel) (input output : Option DrmBoBuffer)
    (r : XCamReturn × Option Binding)
    (hrun : run asserts (.new uninit) t = .ok k)
    (hcall : prepare_arguments asserts k input output = .ok (k1, r))
    (hN : 4 < (admitted t ++ [CLVaImage.new input]).length) :
    k1._image_in_list.length = 4
    ∧ k1._image_in_list
        = (admitted t ++ [CLVaImage.new input]).drop
            ((admitted t ++ [CLVaImage.new input]).length - 4)
    ∧ k1._image_in_list = k._image_in_list.tail ++ [CLVaImage.new input]
    ∧ k._image_in_list.head? = (admitted t)[(admitted t).length - 4]? := by
  have hk := run_history t hrun
  have h1 := prepare_arguments_history hcall
  simp only [List.length_append, List.length_singleton] at hN
  have h4 : 4 ≤ (admitted t).length := by omega
  have hk4 : k._image_in_list = (admitted t).drop ((admitted t).length - 4) := by
    rw [hk]; exact history_of_many _ h4
  have hlen : k._image_in_list.length = 4 := by
    rw [hk4, List.length_drop]; omega
  have hadm : k1._image_in_list = k._image_in_list.tail ++ [CLVaImage.new input] := by
    rw [h1, admit_frame, if_neg (by omega)]
  refine ⟨?_, ?_, hadm, ?_⟩
  · rw [hadm]; simp [hlen]
  · have e : (admitted t ++ [CLVaImage.new input]).length - 4
        = (admitted t).length - 4 + 1 := by
      simp only [List.length_append, List.length_singleton]; omega
    rw [hadm, hk4, List.tail_drop, e, List.drop_append_of_le_length (by omega)]
  · rw [hk4, List.head?_drop]

/-- Witness of C2: after the four frames 1 to 4, binding frame 5 leaves the frames 2, 3, 4 and
5 in the history. -/
theorem C2_history_holds_last_four_witness :
    ∃ k k1 r,
      run true (.new 0) four_frames = .ok k
      ∧ prepare_arguments true k (some (sample_buffer 5 true)) (some (sample_buffer 15 true))
          = .ok (k1, r)
      ∧ 4 < (admitted four_frames ++ [CLVaImage.new (some (sample_buffer 5 true))]).length
      ∧ k1._image_in_list.map CLImage.get_mem_id = [2, 3, 4, 5]
      ∧ (k1._image_in_list.length = 4
        ∧ k1._image_in_list
            = (admitted four_frames ++ [CLVaImage.new (some (sample_buffer 5 true))]).drop
                ((admitted four_frames
                    ++ [CLVaImage.new (some (sample_buffer 5 true))]).length - 4)
        ∧ k1._image_in_list
            = k._image_in_list.tail ++ [CLVaImage.new (some (sample_buffer 5 true))]
        ∧ k._image_in_list.head?
            = (admitted four_frames)[(admitted four_frames).length - 4]?) :=
  ⟨_, _, _, rfl, rfl, by decide, rfl,
    C2_history_holds_last_four true 0 four_frames _ _ (some (sample_buffer 5 true))
      (some (sample_buffer 15 true)) _ rfl rfl (by decide)⟩

/-- C3 as stated fails: after the single admission of one frame into a fresh kernel
(N = 1) the history has length 4, not 1, and holds that frame four times. -/
theorem C3_counterexample :
    ∃ k1 r,
      prepare_arguments false (.new 0) (some (sample_buffer 1 true))
          (some (sample_buffer 11 true)) = .ok (k1, r)
      ∧ (admitted [.prepare_arguments (some (sample_buffer 1 true))
            (some (sample_buffer 11 true))]).length = 1
      ∧ k1._image_in_list.length = 4
      ∧ k1._image_in_list.length
          ≠ (admitted [.prepare_arguments (some (sample_buffer 1 true))
              (some (sample_buffer 11 true))]).length
      ∧ k1._image_in_list
          = List.replicate 4 (CLVaImage.new (some (sample_buffer 1 true))) :=
  ⟨_, _, rfl, rfl, rfl, by decide, rfl⟩

/-- C3 (amended): on a fresh kernel, after a run that admitted N frames with
1 <= N <= 4, the first of them being `f`, the history has length 4 and holds `f` in its
first 4 - N slots followed by the N admitted frames in admission order. -/
theorem C3_history_during_warm_up (asserts : Bool) (uninit : Nat) (t : List Call)
    (k : CLYuvPipeImageKernel) (f : CLImage) (rest : List CLImage)
    (hrun : run asserts (.new uninit) t = .ok k)
    (hadm : admitted t = f :: rest)
    (hN : (admitted t).length ≤ 4) :
    k._image_in_list.length = 4
    ∧ k._image_in_list = List.replicate (4 - (admitted t).length) f ++ admitted t := by
  have hk := run_history t hrun
  rw [hadm] at hN hk ⊢
  simp only [List.length_cons] at hN ⊢
  have h := history_of_few f rest hN
  have hk2 : k._image_in_list = List.replicate (4 - (rest.length + 1)) f ++ f :: rest := by
    rw [hk]; exact h
  refine ⟨?_, hk2⟩
  rw [hk2]
  simp only [List.length_append, List.length_replicate, List.length_cons]
  omega

/-- Witness of C3 (amended): after the frames 1 and 2 the history holds the frames 1, 1, 1
and 2. -/
theorem C3_history_during_warm_up_witness :
    ∃ k,
      run true (.new 0) (four_frames.take 5) = .ok k
      ∧ admitted (four_frames.take 5)
          = CLVaImage.new (some (sample_buffer 1 true))
              :: [CLVaImage.new (some (sample_buffer 2 true))]
      ∧ (admitted (four_frames.take 5)).length ≤ 4
      ∧ k._image_in_list.map CLImage.get_mem_id = [1, 1, 1, 2]
      ∧ (k._image_in_list.length = 4
        ∧ k._image_in_list
            = List.replicate (4 - (admitted (four_frames.take 5)).length)
                (CLVaImage.new (some (sample_buffer 1 true)))
              ++ admitted (four_frames.take 5)) :=
  ⟨_, rfl, rfl, by decide, rfl,
    C3_history_during_warm_up true 0 (four_frames.take 5) _ _ _ rfl rfl (by decide)⟩

/-! ## The bound arguments -/

theorem write_arg_length_le (args : List CLArgument) (pos : Nat) (a : CLArgument) :
    args.length ≤ (write_arg args pos a).length := by
  unfold write_arg
  split_ifs <;> simp

theorem write_arg_low (args : List CLArgument) (idx i : Nat) (a : CLArgument)
    (hi : i < 15) (hlen : 15 ≤ args.length) :
    (write_arg args (15 + idx) a)[i]? = args[i]? := by
  unfold write_arg
  split_ifs
  · rw [List.getElem?_set_ne (by omega)]
  · rw [List.getElem?_append_left (by omega)]

/-- The loop over the history leaves the first fifteen arguments as they are. -/
theorem bind_history_low (l : List CLImage) (args : List CLArgument) (idx i : Nat)
    (hi : i < 15) (hlen : 15 ≤ args.length) :
    (bind_history l args idx).1[i]? = args[i]? := by
  induction l generalizing args idx with
  | nil => rfl
  | cons it rest ih =>
    rw [bind_history, ih _ _ (le_trans hlen (write_arg_length_le _ _ _)),
      write_arg_low _ _ _ _ hi hlen]

/-- On a kernel run from its construction the history is empty or holds four frames. -/
theorem run_history_length {asserts : Bool} {uninit : Nat} {t : List Call}
    {k : CLYuvPipeImageKernel} (h : run asserts (.new uninit) t = .ok k) :
    k._image_in_list = [] ∨ k._image_in_list.length = 4 := by
  have hk : k._image_in_list = (admitted t).foldl admit_frame [] := run_history t h
  cases hadm : admitted t with
  | nil => left; rw [hk, hadm]; rfl
  | cons f rest =>
    right
    rw [hk, hadm, foldl_admit_frame_nil, List.length_drop]
    simp only [List.length_append, List.length_cons, List.length_nil]
    omega

theorem admit_frame_length {l : List CLImage} (img : CLImage)
    (h : l = [] ∨ l.length = 4) : (admit_frame l img).length = 4 := by
  rcases h with h | h
  · subst h; rfl
  · rw [admit_frame, if_neg (by omega)]
    simp [h]

theorem first_frame_override_tunables (k : CLYuvPipeImageKernel) :
    (first_frame_override k)._framecount = k._framecount
    ∧ (first_frame_override k)._macc_table = k._macc_table
    ∧ (first_frame_override k)._rgbtoyuv_matrix = k._rgbtoyuv_matrix := by
  unfold first_frame_override
  split
  · simp
  · split_ifs <;> simp

/-- C4: for every `prepare_arguments` call that succeeds on a kernel run from its
construction by any calls of its setters, of `prepare_arguments` and of `post_execute`,
the bound arguments are, in this order, the output image, the
previous-output image, the vertical offset, the colour-matrix buffer, the macc buffer, the
frame count, the RGB gain, `thr_r`, `thr_g`, `thr_b`, the YUV gain, `thr_y`, `thr_uv`, the
RGB enable flag and the YUV enable flag, followed by one image argument per frame of the
history, oldest first; `arg_count` is 15 plus the length of the history after the
admission, which is 19. -/
theorem C4_argument_sequence (asserts : Bool) (uninit : Nat) (t : List Call)
    (k k1 : CLYuvPipeImageKernel) (input output : Option DrmBoBuffer) (b : Binding)
    (hrun : run asserts (.new uninit) t = .ok k)
    (hcall : prepare_arguments asserts k input output
      = .ok (k1, .XCAM_RETURN_NO_ERROR, some b)) :
    ∃ prev,
      k1._image_out_prev = some prev
      ∧ k1._image_out = some (CLVaImage.new output)
      ∧ b.args
          = [ .mem (CLVaImage.new output).get_mem_id,
              .mem prev.get_mem_id,
              .u32 k1._vertical_offset,
              .buf (CLBuffer.new k1._rgbtoyuv_matrix),
              .buf (CLBuffer.new k1._macc_table),
              .u32 k1._framecount,
              .f32 k1._gain_rgb,
              .f32 k1._thr_r,
              .f32 k1._thr_g,
              .f32 k1._thr_b,
              .f32 k1._gain_yuv,
              .f32 k1._thr_y,
              .f32 k1._thr_uv,
              .u32 k1._enable_tnr_rgb,
              .u32 k1._enable_tnr_yuv ]
            ++ k1._image_in_list.map (fun it => CLArgument.mem it.get_mem_id)
      ∧ b.arg_count = 15 + k1._image_in_list.length
      ∧ b.arg_count = 19
      ∧ b.args.length = b.arg_count := by
  have hhist := prepare_arguments_history hcall
  have hlen : k1._image_in_list.length = 4 := by
    rw [hhist]; exact admit_frame_length _ (run_history_length hrun)
  cases output with
  | none => simp [prepare_arguments] at hcall
  | some out =>
    rw [prepare_arguments_some] at hcall
    split_ifs at hcall with hv ha
    swap
    · simp at hcall
    simp only [Except.ok.injEq, Prod.mk.injEq, Option.some.injEq, true_and] at hcall
    obtain ⟨hk1, hb⟩ := hcall
    rw [hk1] at hb
    have hprev : k1._image_out_prev = some (prev_after k out) := by
      rw [← hk1]; exact prev_after_spec k input out
    have hout : k1._image_out = some (CLVaImage.new (some out)) := by
      rw [← hk1, (first_frame_override_frame _).2.1]; rfl
    have htun := first_frame_override_tunables (load_frame k input out)
    rw [hk1] at htun
    have hm : k1._rgbtoyuv_matrix = k._rgbtoyuv_matrix := htun.2.2
    have hc : k1._macc_table = k._macc_table := htun.2.1
    obtain ⟨x1, x2, x3, x4, hx⟩ : ∃ x1 x2 x3 x4, k1._image_in_list = [x1, x2, x3, x4] := by
      match hl : k1._image_in_list, hlen with
      | [x1, x2, x3, x4], _ => exact ⟨x1, x2, x3, x4, rfl⟩
    refine ⟨prev_after k out, hprev, hout, ?_⟩
    subst hb
    simp [bind_arguments, hx, hm, hc, bind_history, write_arg]

/-- Witness of C4: the binding of frame 5 after the four frames 1 to 4 and after every
setter was called with values of its own: the arguments from index 5 on are the frame
count 2, the RGB gain 6, the thresholds 7, 8 and 9, the YUV gain 10, the thresholds 11 and
12, the two enable flags and the images of the frames 2, 3, 4 and 5; arguments 3 and 4 wrap
the matrix and the table that were set. -/
theorem C4_argument_sequence_witness :
    ∃ k k1 b,
      run true (.new 0) (four_frames ++ tuning_calls) = .ok k
      ∧ prepare_arguments true k (some (sample_buffer 5 true)) (some (sample_buffer 15 true))
          = .ok (k1, .XCAM_RETURN_NO_ERROR, some b)
      ∧ b.args.take 3 = [.mem 15, .mem 14, .u32 1088]
      ∧ b.args[3]? = some (.buf { size := 36, host := [21, 22, 23, 24, 25, 26, 27, 28, 29] })
      ∧ b.args[4]? = some (.buf { size := 256, host := List.replicate 64 3 })
      ∧ b.args.drop 5
          = [.u32 2, .f32 6, .f32 7, .f32 8, .f32 9, .f32 10, .f32 11, .f32 12, .u32 1, .u32 1,
              .mem 2, .mem 3, .mem 4, .mem 5]
      ∧ ∃ prev,
          k1._image_out_prev = some prev
          ∧ k1._image_out = some (CLVaImage.new (some (sample_buffer 15 true)))
          ∧ b.args
              = [ .mem (CLVaImage.new (some (sample_buffer 15 true))).get_mem_id,
                  .mem prev.get_mem_id,
                  .u32 k1._vertical_offset,
                  .buf (CLBuffer.new k1._rgbtoyuv_matrix),
                  .buf (CLBuffer.new k1._macc_table),
                  .u32 k1._framecount,
                  .f32 k1._gain_rgb,
                  .f32 k1._thr_r,
                  .f32 k1._thr_g,
                  .f32 k1._thr_b,
                  .f32 k1._gain_yuv,
                  .f32 k1._thr_y,
                  .f32 k1._thr_uv,
                  .u32 k1._enable_tnr_rgb,
                  .u32 k1._enable_tnr_yuv ]
                ++ k1._image_in_list.map (fun it => CLArgument.mem it.get_mem_id)
          ∧ b.arg_count = 15 + k1._image_in_list.length
          ∧ b.arg_count = 19
          ∧ b.args.length = b.arg_count :=
  ⟨_, _, _, rfl, rfl, rfl, rfl, rfl, rfl,
    C4_argument_sequence true 0 (four_frames ++ tuning_calls) _ _
      (some (sample_buffer 5 true)) (some (sample_buffer 15 true)) _ rfl rfl⟩

/-- C5: for every `prepare_arguments` call that succeeds with an output buffer of width
`w` and aligned height `h`, the work size has dimension 2, global size `(w / 2, h / 2)`
(integer division) and local size `(4, 4)`, and the vertical offset, bound as
argument 2, is `h`. -/
theorem C5_work_size (asserts : Bool) (k k1 : CLYuvPipeImageKernel)
    (input : Option DrmBoBuffer) (out : DrmBoBuffer) (b : Binding)
    (hcall : prepare_arguments asserts k input (some out)
      = .ok (k1, .XCAM_RETURN_NO_ERROR, some b)) :
    b.work_size
        = { dim := 2
            global0 := out.video_info.width / 2
            global1 := out.video_info.aligned_height / 2
            local0 := 4
            local1 := 4 }
    ∧ k1._vertical_offset = out.video_info.aligned_height
    ∧ b.args[2]? = some (.u32 out.video_info.aligned_height) := by
  rw [prepare_arguments_some] at hcall
  split_ifs at hcall with hv ha
  swap
  · simp at hcall
  simp only [Except.ok.injEq, Prod.mk.injEq, Option.some.injEq, true_and] at hcall
  obtain ⟨hk1, hb⟩ := hcall
  have hoff : k1._vertical_offset = out.video_info.aligned_height := by
    rw [← hk1, (first_frame_override_frame _).2.2.2.2]; rfl
  rw [hk1] at hb
  subst hb
  refine ⟨rfl, hoff, ?_⟩
  simp only [bind_arguments]
  rw [bind_history_low _ _ _ 2 (by omega) (by simp), hoff]
  rfl

/-- Witness of C5: a 1920x1080 output of aligned height 1088 gives the global size
(960, 544). -/
theorem C5_work_size_witness :
    ∃ k1 b,
      prepare_arguments true (.new 0) (some (sample_buffer 1 true))
          (some (sample_buffer 11 true)) = .ok (k1, .XCAM_RETURN_NO_ERROR, some b)
      ∧ b.work_size = { dim := 2, global0 := 960, global1 := 544, local0 := 4, local1 := 4 }
      ∧ (b.work_size
            = { dim := 2
                global0 := (sample_buffer 11 true).video_info.width / 2
                global1 := (sample_buffer 11 true).video_info.aligned_height / 2
                local0 := 4
                local1 := 4 }
        ∧ k1._vertical_offset = (sample_buffer 11 true).video_info.aligned_height
        ∧ b.args[2]? = some (.u32 (sample_buffer 11 true).video_info.aligned_height)) :=
  ⟨_, _, rfl, rfl,
    C5_work_size true (.new 0) _ (some (sample_buffer 1 true)) (sample_buffer 11 true) _ rfl⟩

/-- C6 (code defect): with assertions compiled out, the first `prepare_arguments` call on
a fresh kernel, given an output buffer whose image is invalid, returns
`XCAM_RETURN_ERROR_MEM` and has already stored that invalid image in `_image_out_prev`;
`post_execute` keeps it there, and the next call, which succeeds, binds it as the
previous-output argument. -/
theorem C6_previous_output_set_before_validation (uninit : Nat) :
    ∃ k1 k2 k3 b,
      prepare_arguments false (.new uninit) (some (sample_buffer 1 true))
          (some (sample_buffer 11 false)) = .ok (k1, .XCAM_RETURN_ERROR_MEM, none)
      ∧ k1._image_out_prev = some (CLVaImage.new (some (sample_buffer 11 false)))
      ∧ (CLVaImage.new (some (sample_buffer 11 false))).is_valid = false
      ∧ post_execute k1 = .ok (k2, .XCAM_RETURN_NO_ERROR)
      ∧ k2._image_out_prev = some (CLVaImage.new (some (sample_buffer 11 false)))
      ∧ prepare_arguments false k2 (some (sample_buffer 2 true))
          (some (sample_buffer 12 true)) = .ok (k3, .XCAM_RETURN_NO_ERROR, some b)
      ∧ b.args[1]? = some (.mem (CLVaImage.new (some (sample_buffer 11 false))).get_mem_id) :=
  ⟨_, _, _, _, rfl, rfl, rfl, rfl, rfl, rfl, rfl⟩

/-- C7 as stated fails: a call with a null output buffer ends in a null dereference
(`output->get_video_info ()` precedes every check), and with assertions compiled in a call
whose output image, or whose input image, is invalid stops at the assertion of line 141
instead of returning `XCAM_RETURN_ERROR_MEM`. -/
theorem C7_counterexample :
    prepare_arguments false (.new 0) (some (sample_buffer 1 true)) none
        = .error .null_deref
    ∧ prepare_arguments true (.new 0) (some (sample_buffer 1 true)) none
        = .error .null_deref
    ∧ prepare_arguments true (.new 0) (some (sample_buffer 1 true))
        (some (sample_buffer 11 false)) = .error .assertion
    ∧ prepare_arguments true (.new 0) none (some (sample_buffer 11 true))
        = .error .assertion :=
  ⟨rfl, rfl, rfl, rfl⟩

/-- C7 (amended): for every `prepare_arguments` call with a non-null output buffer, on any
kernel: with assertions compiled out the call returns, with `XCAM_RETURN_NO_ERROR` if and
only if the input image and the output image are both valid and with
`XCAM_RETURN_ERROR_MEM` if and only if one of them is invalid (the image of a null input
buffer is invalid), and it binds arguments exactly when it succeeds; with assertions
compiled in the call does the same when both images are valid and stops at the assertion
otherwise. -/
theorem C7_invalid_image_handling (k : CLYuvPipeImageKernel) (input : Option DrmBoBuffer)
    (out : DrmBoBuffer) :
    (∃ k1 ret b,
      prepare_arguments false k input (some out) = .ok (k1, ret, b)
      ∧ (ret = .XCAM_RETURN_NO_ERROR
          ↔ ((CLVaImage.new input).is_valid = true
              ∧ (CLVaImage.new (some out)).is_valid = true))
      ∧ (ret = .XCAM_RETURN_ERROR_MEM
          ↔ ((CLVaImage.new input).is_valid = false
              ∨ (CLVaImage.new (some out)).is_valid = false))
      ∧ (b.isSome = true ↔ ret = .XCAM_RETURN_NO_ERROR))
    ∧ prepare_arguments true k input (some out)
        = (if (CLVaImage.new input).is_valid && (CLVaImage.new (some out)).is_valid then
            prepare_arguments false k input (some out)
          else .error .assertion) := by
  constructor
  · rw [prepare_arguments_some]
    by_cases hv :
        ((CLVaImage.new input).is_valid && (CLVaImage.new (some out)).is_valid) = true
    · rw [if_pos hv]
      rw [Bool.and_eq_true] at hv
      exact ⟨_, _, _, rfl, by simp [hv.1, hv.2], by simp [hv.1, hv.2], by simp⟩
    · rw [if_neg hv]
      have hv2 : (CLVaImage.new input).is_valid = false
          ∨ (CLVaImage.new (some out)).is_valid = false := by
        cases hi : (CLVaImage.new input).is_valid <;>
          cases ho : (CLVaImage.new (some out)).is_valid <;> simp_all
      refine ⟨_, _, _, rfl, ?_, by simp [hv2], by simp⟩
      rcases hv2 with h | h <;> simp [h]
  · rw [prepare_arguments_some, prepare_arguments_some]
    by_cases hv :
        ((CLVaImage.new input).is_valid && (CLVaImage.new (some out)).is_valid) = true
    · simp only [if_pos hv]
    · simp only [if_neg hv, if_true]

/-! ## The YUV flag across calls -/

theorem requested_le_one (init : Nat) (t : List Call) (h : init ≤ 1) : requested init t ≤ 1 := by
  induction t generalizing init with
  | nil => exact h
  | cons c cs ih =>
    cases c with
    | set_tnr_enable rgb yuv =>
      simp only [requested]
      apply ih
      split_ifs <;> omega
    | prepare_arguments input output => exact ih _ h
    | post_execute => exact ih _ h
    | _ => exact ih _ h

theorem requested_append (init : Nat) (t u : List Call) :
    requested init (t ++ u) = requested (requested init t) u := by
  induction t generalizing init with
  | nil => rfl
  | cons c cs ih => cases c <;> simp [requested, ih]

/-- Before the first `prepare_arguments` call the kernel holds the requested flag and no
previous output. -/
theorem run_cold {asserts : Bool} (t : List Call) {k k1 : CLYuvPipeImageKernel}
    (hrun : run asserts k t = .ok k1) (hadm : admitted t = [])
    (hprev : k._image_out_prev = none) (hout : k._image_out = none) :
    k1._image_out_prev = none ∧ k1._enable_tnr_yuv = requested k._enable_tnr_yuv t := by
  induction t generalizing k with
  | nil =>
    simp only [run, Except.ok.injEq] at hrun
    subst hrun
    exact ⟨hprev, rfl⟩
  | cons c cs ih =>
    cases c with
    | set_tnr_enable rgb yuv =>
      simp only [run, step] at hrun
      exact ih hrun (by simpa [admitted] using hadm) hprev hout
    | prepare_arguments input output => simp [admitted] at hadm
    | post_execute => simp [run, step, post_execute, hout] at hrun
    | _ =>
      simp only [run, step] at hrun
      have h2 := ih hrun (by simpa [admitted] using hadm) hprev hout
      exact h2

/-- The first `prepare_arguments` call saves the flag and leaves 0 in its place. -/
theorem prepare_arguments_first {asserts : Bool} {k k1 : CLYuvPipeImageKernel}
    {input output : Option DrmBoBuffer} {r : XCamReturn × Option Binding}
    (hcall : prepare_arguments asserts k input output = .ok (k1, r))
    (hprev : k._image_out_prev = none) :
    k1._enable_tnr_yuv = 0 ∧ Warm k._enable_tnr_yuv k._enable_tnr_yuv k1 := by
  cases output with
  | none => simp [prepare_arguments] at hcall
  | some out =>
    have hk1 : k1 = first_frame_override (load_frame k input out) := by
      rw [prepare_arguments_some] at hcall
      split_ifs at hcall <;>
        simp only [Except.ok.injEq, Prod.mk.injEq] at hcall <;> exact hcall.1.symm
    subst hk1
    simp [first_frame_override, load_frame, hprev, Warm]

/-- A later `prepare_arguments` call replaces a zero flag by the saved one. -/
theorem prepare_arguments_later {asserts : Bool} {k k1 : CLYuvPipeImageKernel}
    {input output : Option DrmBoBuffer} {r : XCamReturn × Option Binding} {s req : Nat}
    (hcall : prepare_arguments asserts k input output = .ok (k1, r))
    (hw : Warm s req k) :
    k1._enable_tnr_yuv = max req s ∧ Warm s req k1 := by
  cases output with
  | none => simp [prepare_arguments] at hcall
  | some out =>
    have hk1 : k1 = first_frame_override (load_frame k input out) := by
      rw [prepare_arguments_some] at hcall
      split_ifs at hcall <;>
        simp only [Except.ok.injEq, Prod.mk.injEq] at hcall <;> exact hcall.1.symm
    obtain ⟨hp, hst, hfl⟩ := hw
    obtain ⟨p, hp⟩ := Option.isSome_iff_exists.mp hp
    subst hk1
    have hmax : s ≤ max req s := le_max_right _ _
    by_cases h0 : k._enable_tnr_yuv = 0
    · rw [if_pos h0] at hfl
      have e : (first_frame_override (load_frame k input out))._enable_tnr_yuv = s := by
        simp [first_frame_override, load_frame, hp, h0, hst]
      refine ⟨by rw [e]; exact hfl, ?_, ?_, ?_⟩
      · simp [first_frame_override, load_frame, hp, h0]
      · simp [first_frame_override, load_frame, hp, h0, hst]
      · rw [e]; split_ifs <;> omega
    · rw [if_neg h0] at hfl
      have e : (first_frame_override (load_frame k input out))._enable_tnr_yuv
          = k._enable_tnr_yuv := by
        simp [first_frame_override, load_frame, hp, h0]
      refine ⟨by rw [e]; exact hfl, ?_, ?_, ?_⟩
      · simp [first_frame_override, load_frame, hp, h0]
      · simp [first_frame_override, load_frame, hp, h0, hst]
      · rw [e, if_neg h0]; exact hfl

theorem step_warm {asserts : Bool} {k k1 : CLYuvPipeImageKernel} {c : Call} {s req : Nat}
    (hstep : step asserts k c = .ok k1) (hw : Warm s req k) (hs : s ≤ 1) :
    Warm s (requested req [c]) k1 := by
  cases c with
  | set_tnr_enable rgb yuv =>
    simp only [step, Except.ok.injEq] at hstep
    subst hstep
    obtain ⟨hp, hst, _⟩ := hw
    refine ⟨hp, hst, ?_⟩
    cases yuv
    · simp [set_tnr_enable, requested]
    · simp [set_tnr_enable, requested]; omega
  | prepare_arguments input output =>
    simp only [step] at hstep
    cases hp : prepare_arguments asserts k input output with
    | error f => simp [hp] at hstep
    | ok r =>
      simp only [hp, Except.ok.injEq] at hstep
      subst hstep
      exact (prepare_arguments_later hp hw).2
  | post_execute =>
    simp only [step, post_execute] at hstep
    cases ho : k._image_out with
    | none => simp [ho] at hstep
    | some o =>
      simp only [ho, Except.ok.injEq] at hstep
      obtain ⟨hp, hst, hfl⟩ := hw
      by_cases hv : o.is_valid = true
      · rw [if_pos hv] at hstep
        subst hstep
        exact ⟨rfl, hst, hfl⟩
      · rw [if_neg hv] at hstep
        subst hstep
        exact ⟨hp, hst, hfl⟩
  | _ =>
    simp only [step, Except.ok.injEq] at hstep
    subst hstep
    exact hw

theorem run_warm {asserts : Bool} (t : List Call) {k k1 : CLYuvPipeImageKernel} {s req : Nat}
    (hrun : run asserts k t = .ok k1) (hw : Warm s req k) (hs : s ≤ 1) :
    Warm s (requested req t) k1 := by
  induction t generalizing k req with
  | nil =>
    simp only [run, Except.ok.injEq] at hrun
    subst hrun
    exact hw
  | cons c cs ih =>
    simp only [run] at hrun
    cases hstep : step asserts k c with
    | error f => simp [hstep] at hrun
    | ok k2 =>
      simp only [hstep] at hrun
      have h2 := ih hrun (step_warm hstep hw hs)
      have e : requested req (c :: cs) = requested (requested req [c]) cs := by
        rw [← requested_append]; rfl
      rw [e]
      exact h2

theorem run_append {asserts : Bool} (t u : List Call) (k : CLYuvPipeImageKernel) :
    run asserts k (t ++ u)
      = match run asserts k t with
        | .ok k1 => run asserts k1 u
        | .error f => .error f := by
  induction t generalizing k with
  | nil => rfl
  | cons c cs ih =>
    simp only [List.cons_append, run]
    cases step asserts k c with
    | error f => rfl
    | ok k2 => exact ih k2

/-- The YUV flag bound by the calls on a kernel run from its construction, `pre` being the
calls made before the first `prepare_arguments` call and `s` the flag requested by then:
the first call leaves 0 in the flag, and every successful later call binds, as
argument 14, the larger of `s` and the flag most recently requested. -/
theorem yuv_flag_of_later_call (asserts : Bool) (uninit : Nat) (pre mid : List Call)
    (input1 output1 input output : Option DrmBoBuffer)
    (k k1 : CLYuvPipeImageKernel) (b : Binding)
    (hpre : admitted pre = [])
    (hrun : run asserts (.new uninit) (pre ++ .prepare_arguments input1 output1 :: mid)
      = .ok k)
    (hcall : prepare_arguments asserts k input output
      = .ok (k1, .XCAM_RETURN_NO_ERROR, some b)) :
    b.args[14]?
      = some (.u32 (max (requested 0 (pre ++ .prepare_arguments input1 output1 :: mid))
          (requested 0 pre))) := by
  rw [run_append] at hrun
  cases hr0 : run asserts (.new uninit) pre with
  | error f => simp [hr0] at hrun
  | ok k0 =>
    simp only [hr0, run] at hrun
    cases hs1 : step asserts k0 (.prepare_arguments input1 output1) with
    | error f => simp [hs1] at hrun
    | ok ka =>
      simp only [hs1] at hrun
      obtain ⟨hc1, hc2⟩ := run_cold pre hr0 hpre rfl rfl
      have hreq : k0._enable_tnr_yuv = requested 0 pre := hc2
      have hle : requested 0 pre ≤ 1 := requested_le_one 0 pre (by omega)
      simp only [step] at hs1
      cases hp1 : prepare_arguments asserts k0 input1 output1 with
      | error f => simp [hp1] at hs1
      | ok r1 =>
        simp only [hp1, Except.ok.injEq] at hs1
        subst hs1
        have hw := (prepare_arguments_first hp1 hc1).2
        rw [hreq] at hw
        have hw2 := run_warm mid hrun hw hle
        have hfl := (prepare_arguments_later hcall hw2).1
        have e : requested 0 (pre ++ .prepare_arguments input1 output1 :: mid)
            = requested (requested 0 pre) mid := by
          rw [requested_append]; rfl
        rw [e, ← hfl]
        cases output with
        | none => simp [prepare_arguments] at hcall
        | some out =>
          rw [prepare_arguments_some] at hcall
          split_ifs at hcall with hv ha
          swap
          · simp at hcall
          simp only [Except.ok.injEq, Prod.mk.injEq, Option.some.injEq, true_and] at hcall
          obtain ⟨hk1, hb⟩ := hcall
          rw [hk1] at hb
          subst hb
          simp only [bind_arguments]
          rw [bind_history_low _ _ _ 14 (by omega) (by simp)]
          rfl

/-! ## The result inbox -/

/-- C8: for an inbox of fewer than 2^32 results (the count is returned as a `uint32_t`),
`get_results` returns the number of results in the inbox, sets the caller's list to the
inbox contents in insertion order, whatever it held, and leaves the inbox empty; a second
call made right after it returns 0 and an empty list. -/
theorem C8_get_results_drains (ctx : XCamSmartAnalyerContext) (results : X3aResultList)
    (h : ctx._results.length < 2 ^ 32) :
    (get_results ctx results).2.2 = ctx._results.length
    ∧ (get_results ctx results).2.1 = ctx._results
    ∧ (get_results ctx results).1._results = []
    ∧ (get_results (get_results ctx results).1 (get_results ctx results).2.1).2.2 = 0
    ∧ (get_results (get_results ctx results).1 (get_results ctx results).2.1).2.1 = []
    ∧ (get_results (get_results ctx results).1 (get_results ctx results).2.1).1._results
        = [] := by
  refine ⟨?_, rfl, rfl, rfl, rfl, rfl⟩
  exact Nat.mod_eq_of_lt h

/-- Witness of C8: an inbox of three results is drained into a list that held one. -/
theorem C8_get_results_drains_witness :
    (x3a_calculation_done .new (sample_results 3))._results.length < 2 ^ 32
    ∧ (get_results (x3a_calculation_done .new (sample_results 3)) (sample_results 1)).2.2 = 3
    ∧ ((get_results (x3a_calculation_done .new (sample_results 3)) (sample_results 1)).2.2
          = (x3a_calculation_done .new (sample_results 3))._results.length
        ∧ (get_results (x3a_calculation_done .new (sample_results 3))
              (sample_results 1)).2.1
            = (x3a_calculation_done .new (sample_results 3))._results
        ∧ (get_results (x3a_calculation_done .new (sample_results 3))
              (sample_results 1)).1._results = []
        ∧ (get_results
              (get_results (x3a_calculation_done .new (sample_results 3))
                (sample_results 1)).1
              (get_results (x3a_calculation_done .new (sample_results 3))
                (sample_results 1)).2.1).2.2 = 0
        ∧ (get_results
              (get_results (x3a_calculation_done .new (sample_results 3))
                (sample_results 1)).1
              (get_results (x3a_calculation_done .new (sample_results 3))
                (sample_results 1)).2.1).2.1 = []
        ∧ (get_results
              (get_results (x3a_calculation_done .new (sample_results 3))
                (sample_results 1)).1
              (get_results (x3a_calculation_done .new (sample_results 3))
                (sample_results 1)).2.1).1._results = []) :=
  ⟨by decide, by decide,
    C8_get_results_drains (x3a_calculation_done .new (sample_results 3)) (sample_results 1)
      (by decide)⟩

/-- Drained lists and remaining inbox together are the inbox held at the start followed by
everything delivered. -/
theorem inbox_run_conservation (calls : List InboxCall) (ctx : XCamSmartAnalyerContext) :
    (inbox_run ctx calls).2.flatten ++ (inbox_run ctx calls).1._results
      = ctx._results ++ (delivered calls).flatten := by
  induction calls generalizing ctx with
  | nil => simp [inbox_run, delivered]
  | cons c cs ih =>
    cases c with
    | x3a_calculation_done results =>
      simp only [inbox_run, delivered, List.flatten_cons]
      rw [ih]
      simp [x3a_calculation_done]
    | get_results =>
      simp only [inbox_run, delivered, List.flatten_cons, List.append_assoc]
      rw [ih]
      simp [get_results, X3aResultList.assign]

/-- C9: for every sequence of deliveries and drains on a fresh context, each made as one
step, the drained lists in order followed by the remaining inbox are the delivered lists in
delivery order; hence every result occurs in the drains and the remaining inbox together
exactly as often as it was delivered. -/
theorem C9_inbox_conservation (calls : List InboxCall) :
    (inbox_run .new calls).2.flatten ++ (inbox_run .new calls).1._results
        = (delivered calls).flatten
    ∧ ∀ r : X3aResult,
        (inbox_run .new calls).2.flatten.count r + (inbox_run .new calls).1._results.count r
          = (delivered calls).flatten.count r := by
  have h := inbox_run_conservation calls .new
  simp only [XCamSmartAnalyerContext.new, List.nil_append] at h
  refine ⟨h, fun r => ?_⟩
  rw [← List.count_append]
  exact congrArg (List.count r) h

/-! ## The export call -/

theorem copy_results_length (res_array results : List (Option XCam3aResultHead)) (n : Nat) :
    (copy_results res_array results n).length = results.length := by
  induction n with
  | zero => rfl
  | succ i ih => simp [copy_results, ih]

/-- The copy loop puts the first `n` entries of `res_array` in the first `n` places of the
caller's array and leaves the places after them as they were. -/
theorem copy_results_getElem? (res_array results : List (Option XCam3aResultHead))
    (n j : Nat) (hn : n ≤ results.length) :
    (copy_results res_array results n)[j]?
      = if j < n then some (res_array.getD j none) else results[j]? := by
  induction n with
  | zero => simp [copy_results]
  | succ i ih =>
    have hi := ih (by omega)
    simp only [copy_results]
    by_cases hj : j = i
    · subst hj
      rw [List.getElem?_set_self (by rw [copy_results_length]; omega)]
      simp
    · rw [List.getElem?_set_ne (fun h => hj h.symm), hi]
      by_cases hlt : j < i
      · simp [hlt, show j < i + 1 by omega]
      · simp [hlt, show ¬ j < i + 1 by omega]

/-- An export call on an empty inbox returns success with `*res_count = 0` and leaves the
caller's array as it was. -/
theorem xcam_get_results_empty (asserts : Bool) (M : Nat)
    (translate : X3aResultList → Nat → List XCam3aResultHead)
    (results : List (Option XCam3aResultHead)) :
    xcam_get_results asserts M translate .new results
      = .ok (.new, .XCAM_RETURN_NO_ERROR, results, 0) := rfl

/-- An export call that drains `n` results with `1 <= n < M`, `M` being the capacity,
passes both assertions, returns success, reports `n` heads and stores the translated
heads in order in the first `n` places of the caller's array, when the translation
yields one head per result. -/
theorem xcam_get_results_below_capacity (asserts : Bool) (M : Nat)
    (translate : X3aResultList → Nat → List XCam3aResultHead)
    (ctx : XCamSmartAnalyerContext) (results : List (Option XCam3aResultHead))
    (htr : (translate ctx._results M).length = ctx._results.length)
    (h1 : 1 ≤ ctx._results.length) (hM : ctx._results.length < M) (h32 : M ≤ 2 ^ 32)
    (hcap : ctx._results.length ≤ results.length) :
    ∃ out,
      xcam_get_results asserts M translate ctx results
        = .ok ({ ctx with _results := [] }, .XCAM_RETURN_NO_ERROR, out,
            ctx._results.length)
      ∧ out.take ctx._results.length = (translate ctx._results M).map some
      ∧ out.drop ctx._results.length = results.drop ctx._results.length := by
  have hmod : ctx._results.length % 4294967296 = ctx._results.length :=
    Nat.mod_eq_of_lt (by omega)
  have hne : ¬ ctx._results.length = 0 := by omega
  have hpos : ctx._results.length > 0 := by omega
  refine ⟨copy_results
      ((translate ctx._results M).map some
        ++ List.replicate (M - (translate ctx._results M).length) none)
      results ctx._results.length, ?_, ?_, ?_⟩
  · simp [xcam_get_results, get_results, X3aResultList.assign, hmod, hne, hM, htr, hpos]
  · apply List.ext_getElem?
    intro j
    rw [List.getElem?_take]
    by_cases hj : j < ctx._results.length
    · rw [if_pos hj, copy_results_getElem? _ _ _ _ hcap, if_pos hj]
      have hj2 : j < (translate ctx._results M).length := by omega
      simp [List.getD_eq_getElem?_getD, List.getElem?_append_left, hj2]
    · rw [if_neg hj]
      symm
      rw [List.getElem?_eq_none_iff]
      simp only [List.length_map]
      omega
  · apply List.ext_getElem?
    intro j
    rw [List.getElem?_drop, List.getElem?_drop, copy_results_getElem? _ _ _ _ hcap,
      if_neg (by omega)]

theorem analyze_all_some (hs : List X3aCiqTuningHandler) (results : X3aResultList) :
    analyze_all (hs.map some) results = .ok (chain hs results) := by
  induction hs generalizing results with
  | nil => rfl
  | cons h rest ih =>
    simp only [List.map_cons, analyze_all]
    rw [ih]
    rfl

theorem chain_append (hs : List X3aCiqTuningHandler) (h : X3aCiqTuningHandler)
    (results : X3aResultList) :
    chain (hs ++ [h]) results = h.analyze (chain hs results) := by
  simp [chain, List.foldl_append]

/-- The calls `add_handler` with non-null handlers put them at the end of the handler list
in call order, with assertions compiled in or not. -/
theorem add_handlers_some (asserts : Bool) (t : X3aAnalyzeTuner)
    (hs : List X3aCiqTuningHandler) :
    add_handlers asserts t (hs.map some)
      = .ok { t with _handlers := t._handlers ++ hs.map some } := by
  induction hs generalizing t with
  | nil => simp [add_handlers]
  | cons h rest ih =>
    simp only [List.map_cons, add_handlers, X3aAnalyzeTuner.add_handler, Option.isNone_some,
      Bool.and_false, Bool.false_eq_true, if_false]
    rw [ih]
    simp

/-- Deliveries to the callback touch the pending list only, which ends up as the last
delivery. -/
theorem foldl_x3a_calculation_done (ds : List X3aResultList) (a : Option X3aAnalyzerAiq)
    (s : Option X3aStats) (r : X3aResultList) (h : List (Option X3aCiqTuningHandler)) :
    ds.foldl X3aAnalyzeTuner.x3a_calculation_done
        { _aiq_analyzer := a, _stats := s, _results := r, _handlers := h }
      = { _aiq_analyzer := a, _stats := s, _results := ds.foldl (fun _ d => d) r,
          _handlers := h } := by
  induction ds generalizing r with
  | nil => rfl
  | cons d rest ih =>
    simp only [List.foldl_cons]
    exact ih d

/-- What `post_3a_analyze` does, in closed form, on a tuner with an engine and non-null
handlers. -/
theorem post_3a_analyze_some (asserts : Bool) (t : X3aAnalyzeTuner) (e : X3aAnalyzerAiq)
    (hs : List X3aCiqTuningHandler) (push : PushOutcome) (results : X3aResultList)
    (haiq : t._aiq_analyzer = some e) (hh : t._handlers = hs.map some) :
    X3aAnalyzeTuner.post_3a_analyze asserts t push results
      = .ok ({ t with _stats := none, _results := [] }, push.ret,
          chain hs (results
            ++ (push.deliveries.foldl X3aAnalyzeTuner.x3a_calculation_done t)._results)) := by
  cases t with
  | mk a s r h =>
    simp only at haiq hh
    subst haiq hh
    simp only [X3aAnalyzeTuner.post_3a_analyze, foldl_x3a_calculation_done, analyze_all_some]

/-- C11 as stated fails: on a fresh tuner, after the delivery of `[a]` and then of `[b]`
to `x3a_calculation_done` with no `post_3a_analyze` in between, the pending list is `[b]`,
not `[a, b]`, and the next `post_3a_analyze`, during which the engine delivers nothing,
leaves the outgoing list `[b]`: the result `a` is dropped. -/
theorem C11_counterexample :
    (((X3aAnalyzeTuner.new (some { ident := 0 })).x3a_calculation_done
          [{ type := 0, ident := 1 }]).x3a_calculation_done
        [{ type := 0, ident := 2 }])._results
      = [{ type := 0, ident := 2 }]
    ∧ (((X3aAnalyzeTuner.new (some { ident := 0 })).x3a_calculation_done
          [{ type := 0, ident := 1 }]).x3a_calculation_done
        [{ type := 0, ident := 2 }])._results
      ≠ (X3aAnalyzeTuner.new (some { ident := 0 }))._results
          ++ [{ type := 0, ident := 1 }] ++ [{ type := 0, ident := 2 }]
    ∧ (∃ t1,
        X3aAnalyzeTuner.post_3a_analyze true
            (((X3aAnalyzeTuner.new (some { ident := 0 })).x3a_calculation_done
                [{ type := 0, ident := 1 }]).x3a_calculation_done
              [{ type := 0, ident := 2 }])
            { ret := .XCAM_RETURN_NO_ERROR, deliveries := [] } []
          = .ok (t1, .XCAM_RETURN_NO_ERROR, [{ type := 0, ident := 2 }]))
    ∧ ({ type := 0, ident := 1 } : X3aResult) ∉ [({ type := 0, ident := 2 } : X3aResult)] :=
  ⟨rfl, by decide, ⟨_, rfl⟩, by decide⟩

/-- C11 (amended): for every two deliveries `A` and then `B` to `x3a_calculation_done`
with no `post_3a_analyze` in between, whatever was pending before, the pending list
afterwards is `B` alone, and the next `post_3a_analyze`, when the engine delivers nothing
during its push, merges exactly the results of `B` into the outgoing list before the
handlers run. -/
theorem C11_callback_replaces_pending (asserts : Bool) (t : X3aAnalyzeTuner)
    (e : X3aAnalyzerAiq) (hs : List X3aCiqTuningHandler) (A B R : X3aResultList)
    (ret : XCamReturn)
    (haiq : t._aiq_analyzer = some e) (hh : t._handlers = hs.map some) :
    ((t.x3a_calculation_done A).x3a_calculation_done B)._results = B
    ∧ X3aAnalyzeTuner.post_3a_analyze asserts
          ((t.x3a_calculation_done A).x3a_calculation_done B)
          { ret := ret, deliveries := [] } R
        = .ok ({ t with _stats := none, _results := [] }, ret, chain hs (R ++ B)) := by
  refine ⟨rfl, ?_⟩
  rw [post_3a_analyze_some asserts ((t.x3a_calculation_done A).x3a_calculation_done B) e hs _ R
    haiq hh]
  rfl

/-- Witness of C11 (amended): a tuner holding one pending result and one handler, two
deliveries of one result each; the outgoing list is the caller's result, the result of
the second delivery and the result appended by the handler. -/
theorem C11_callback_replaces_pending_witness :
    sample_tuner._aiq_analyzer = some { ident := 0 }
    ∧ sample_tuner._handlers = [appending_handler 9].map some
    ∧ chain [appending_handler 9] ([{ type := 0, ident := 5 }] ++ [{ type := 0, ident := 2 }])
        = [{ type := 0, ident := 5 }, { type := 0, ident := 2 }, { type := 1, ident := 9 }]
    ∧ (((sample_tuner.x3a_calculation_done [{ type := 0, ident := 1 }]).x3a_calculation_done
          [{ type := 0, ident := 2 }])._results = [{ type := 0, ident := 2 }]
      ∧ X3aAnalyzeTuner.post_3a_analyze false
          ((sample_tuner.x3a_calculation_done [{ type := 0, ident := 1 }]).x3a_calculation_done
            [{ type := 0, ident := 2 }])
          { ret := .XCAM_RETURN_NO_ERROR, deliveries := [] } [{ type := 0, ident := 5 }]
        = .ok ({ sample_tuner with _stats := none, _results := [] }, .XCAM_RETURN_NO_ERROR,
            chain [appending_handler 9]
              ([{ type := 0, ident := 5 }] ++ [{ type := 0, ident := 2 }]))) :=
  ⟨rfl, rfl, rfl,
    C11_callback_replaces_pending false sample_tuner { ident := 0 } [appending_handler 9]
      [{ type := 0, ident := 1 }] [{ type := 0, ident := 2 }] [{ type := 0, ident := 5 }]
      .XCAM_RETURN_NO_ERROR rfl rfl⟩

/-- C12: for every outgoing list `R`, pending list `P` and handlers `h1 .. hn` registered
by `add_handler` in that order on a fresh tuner with an engine, `post_3a_analyze` returns
with the outgoing list `hn (... h2 (h1 (R ++ P)) ...)`, the pending list empty and the
cached statistics cleared, the handlers being kept; `P` is the pending list at the merge,
that is the pending list on entry when the engine delivers nothing during its push and the
last list it delivers otherwise. -/
theorem C12_post_3a_analyze_chain (asserts : Bool) (aiq : X3aAnalyzerAiq)
    (hs : List X3aCiqTuningHandler) (stats : Option X3aStats) (P R : X3aResultList)
    (ret : XCamReturn) :
    ∃ t0,
      add_handlers asserts (X3aAnalyzeTuner.new (some aiq)) (hs.map some) = .ok t0
      ∧ t0._handlers = hs.map some
      ∧ ((t0.pre_3a_analyze stats).1.x3a_calculation_done P)._results = P
      ∧ ((t0.pre_3a_analyze stats).1.x3a_calculation_done P)._stats = stats
      ∧ (∃ t1,
          X3aAnalyzeTuner.post_3a_analyze asserts
              ((t0.pre_3a_analyze stats).1.x3a_calculation_done P)
              { ret := ret, deliveries := [] } R
            = .ok (t1, ret, chain hs (R ++ P))
          ∧ t1._results = [] ∧ t1._stats = none ∧ t1._handlers = hs.map some)
      ∧ ∀ (ds : List X3aResultList) (D : X3aResultList),
          ∃ t1,
            X3aAnalyzeTuner.post_3a_analyze asserts
                ((t0.pre_3a_analyze stats).1.x3a_calculation_done P)
                { ret := ret, deliveries := ds ++ [D] } R
              = .ok (t1, ret, chain hs (R ++ D))
            ∧ t1._results = [] ∧ t1._stats = none ∧ t1._handlers = hs.map some := by
  have hb : ∀ push : PushOutcome,
      X3aAnalyzeTuner.post_3a_analyze asserts
          { _aiq_analyzer := some aiq, _stats := stats, _results := P,
            _handlers := hs.map some } push R
        = .ok ({ _aiq_analyzer := some aiq, _stats := none, _results := [],
                 _handlers := hs.map some }, push.ret,
            chain hs (R ++ push.deliveries.foldl (fun _ d => d) P)) := by
    intro push
    rw [post_3a_analyze_some asserts _ aiq hs push R rfl rfl, foldl_x3a_calculation_done]
  have ht : ((({ X3aAnalyzeTuner.new (some aiq) with
          _handlers := (X3aAnalyzeTuner.new (some aiq))._handlers ++ hs.map some } :
        X3aAnalyzeTuner).pre_3a_analyze stats).1.x3a_calculation_done P)
      = { _aiq_analyzer := some aiq, _stats := stats, _results := P,
          _handlers := hs.map some } := by
    cases stats <;>
      simp [X3aAnalyzeTuner.new, X3aAnalyzeTuner.pre_3a_analyze,
        X3aAnalyzeTuner.x3a_calculation_done, X3aResultList.assign]
  refine ⟨_, add_handlers_some asserts _ hs, by simp [X3aAnalyzeTuner.new], ?_⟩
  rw [ht]
  refine ⟨rfl, rfl,
    ⟨{ _aiq_analyzer := some aiq, _stats := none, _results := [], _handlers := hs.map some },
      hb _, rfl, rfl, rfl⟩, ?_⟩
  intro ds D
  refine ⟨{ _aiq_analyzer := some aiq, _stats := none, _results := [],
            _handlers := hs.map some }, ?_, rfl, rfl, rfl⟩
  rw [hb]
  simp only [List.foldl_append, List.foldl_cons, List.foldl_nil]

/-- C13 as stated fails: on a tuner holding one pending result and one handler, a
`post_3a_analyze` whose push fails returns the failure, but the caller's list, empty on
entry, comes back holding the pending result and the result appended by the handler. -/
theorem C13_counterexample :
    (∃ t1,
      X3aAnalyzeTuner.post_3a_analyze false
          { _aiq_analyzer := some { ident := 0 }, _stats := some { ident := 3 },
            _results := [{ type := 0, ident := 1 }],
            _handlers := [some (appending_handler 9)] }
          { ret := .XCAM_RETURN_ERROR_PARAM, deliveries := [] } []
        = .ok (t1, .XCAM_RETURN_ERROR_PARAM,
            [{ type := 0, ident := 1 }, { type := 1, ident := 9 }]))
    ∧ ([{ type := 0, ident := 1 }, { type := 1, ident := 9 }] : X3aResultList) ≠ [] :=
  ⟨⟨_, rfl⟩, by decide⟩

/-- C13 (amended): the code that the push returns has no part in `post_3a_analyze` but as
the value returned: a call whose push fails does what the same call does when the push
succeeds and returns the failure; on a tuner with an engine and non-null handlers
`h1 .. hn`, pending list `P` and caller's list `R`, it returns the failure with the
outgoing list `hn (... h1 (R ++ P) ...)`, the pending list empty and the statistics
cleared. -/
theorem C13_push_failure_still_merges (asserts : Bool) (t : X3aAnalyzeTuner)
    (ret : XCamReturn) (ds : List X3aResultList) (R P : X3aResultList)
    (aiq : X3aAnalyzerAiq) (stats : Option X3aStats) (hs : List X3aCiqTuningHandler) :
    X3aAnalyzeTuner.post_3a_analyze asserts t { ret := ret, deliveries := ds } R
        = (match X3aAnalyzeTuner.post_3a_analyze asserts t
              { ret := .XCAM_RETURN_NO_ERROR, deliveries := ds } R with
          | .ok r => .ok (r.1, ret, r.2.2)
          | .error f => .error f)
    ∧ X3aAnalyzeTuner.post_3a_analyze asserts
          { _aiq_analyzer := some aiq, _stats := stats, _results := P,
            _handlers := hs.map some }
          { ret := ret, deliveries := [] } R
        = .ok ({ _aiq_analyzer := some aiq, _stats := none, _results := [],
                 _handlers := hs.map some }, ret, chain hs (R ++ P)) := by
  constructor
  · unfold X3aAnalyzeTuner.post_3a_analyze
    cases t._aiq_analyzer with
    | none => cases asserts <;> rfl
    | some e =>
      simp only
      cases analyze_all
        (List.foldl X3aAnalyzeTuner.x3a_calculation_done t ds)._handlers
        (R ++ (List.foldl X3aAnalyzeTuner.x3a_calculation_done t ds)._results) <;> rfl
  · rw [post_3a_analyze_some asserts _ aiq hs _ R rfl rfl]
    rfl

/-! ## Later binds and failed binds -/

theorem requested_of_no_set (init : Nat) (t : List Call)
    (h : ∀ rgb yuv, Call.set_tnr_enable rgb yuv ∉ t) : requested init t = init := by
  induction t generalizing init with
  | nil => rfl
  | cons c cs ih =>
    have hcs : ∀ rgb yuv, Call.set_tnr_enable rgb yuv ∉ cs :=
      fun rgb yuv hm => h rgb yuv (List.mem_cons_of_mem _ hm)
    cases c with
    | set_tnr_enable rgb yuv => exact absurd (List.mem_cons_self _ _) (h rgb yuv)
    | prepare_arguments input output => exact ih init hcs
    | post_execute => exact ih init hcs
    | _ => exact ih init hcs

/-- A call that binds arguments has succeeded; argument 14 is the YUV flag the kernel holds
after the call and argument 1 the image of its previous-output slot. -/
theorem bound_flag_and_prev {asserts : Bool} {k k1 : CLYuvPipeImageKernel}
    {input output : Option DrmBoBuffer} {ret : XCamReturn} {b : Binding}
    (hcall : prepare_arguments asserts k input output = .ok (k1, ret, some b)) :
    ret = .XCAM_RETURN_NO_ERROR
    ∧ b.args[14]? = some (.u32 k1._enable_tnr_yuv)
    ∧ ∃ p, k1._image_out_prev = some p ∧ b.args[1]? = some (.mem p.get_mem_id) := by
  cases output with
  | none => simp [prepare_arguments] at hcall
  | some out =>
    rw [prepare_arguments_some] at hcall
    split_ifs at hcall with hv ha
    swap
    · simp at hcall
    simp only [Except.ok.injEq, Prod.mk.injEq, Option.some.injEq] at hcall
    obtain ⟨hk1, hret, hb⟩ := hcall
    rw [hk1] at hb
    subst hb
    refine ⟨hret.symm, ?_, prev_after k out, ?_, ?_⟩
    · simp only [bind_arguments]
      rw [bind_history_low _ _ _ 14 (by omega) (by simp)]
      rfl
    · rw [← hk1]; exact prev_after_spec k input out
    · simp only [bind_arguments]
      rw [bind_history_low _ _ _ 1 (by omega) (by simp)]
      rfl

/-- C14: on a kernel run from its construction, let `s` be the YUV flag held when the
first `prepare_arguments` call is made. Every later `prepare_arguments` call that returns
leaves in the flag, and binds as argument 14 when it succeeds, the flag held on entry if
that is not zero and `s` otherwise; this bound flag is 1 if and only if the flag held on
entry is 1 or `s` is 1; and with no `set_tnr_enable` call after the first bind it is
`s`. -/
theorem C14_first_frame_override_restoration (asserts : Bool) (uninit : Nat)
    (pre mid : List Call) (input1 output1 input output : Option DrmBoBuffer)
    (k0 k k1 : CLYuvPipeImageKernel) (ret : XCamReturn) (ob : Option Binding)
    (hpre : admitted pre = [])
    (hrun0 : run asserts (.new uninit) pre = .ok k0)
    (hrun : run asserts k0 (.prepare_arguments input1 output1 :: mid) = .ok k)
    (hcall : prepare_arguments asserts k input output = .ok (k1, ret, ob)) :
    k1._enable_tnr_yuv
        = (if k._enable_tnr_yuv = 0 then k0._enable_tnr_yuv else k._enable_tnr_yuv)
    ∧ (∀ b, ob = some b → b.args[14]? = some (.u32 k1._enable_tnr_yuv))
    ∧ (k1._enable_tnr_yuv = 1 ↔ (k._enable_tnr_yuv = 1 ∨ k0._enable_tnr_yuv = 1))
    ∧ ((∀ rgb yuv, Call.set_tnr_enable rgb yuv ∉ mid)
        → k1._enable_tnr_yuv = k0._enable_tnr_yuv) := by
  obtain ⟨hc1, hc2⟩ := run_cold pre hrun0 hpre rfl rfl
  have hle : k0._enable_tnr_yuv ≤ 1 := by
    rw [hc2]; exact requested_le_one _ pre (by simp [CLYuvPipeImageKernel.new])
  simp only [run] at hrun
  cases hs1 : step asserts k0 (.prepare_arguments input1 output1) with
  | error f => simp [hs1] at hrun
  | ok ka =>
    simp only [hs1] at hrun
    simp only [step] at hs1
    cases hp1 : prepare_arguments asserts k0 input1 output1 with
    | error f => simp [hp1] at hs1
    | ok r1 =>
      simp only [hp1, Except.ok.injEq] at hs1
      subst hs1
      have hw := (prepare_arguments_first hp1 hc1).2
      have hw2 := run_warm mid hrun hw hle
      obtain ⟨hfl, _⟩ := prepare_arguments_later hcall hw2
      have hentry := hw2.2.2
      have hreq : requested k0._enable_tnr_yuv mid ≤ 1 := requested_le_one _ mid hle
      have hval : k1._enable_tnr_yuv
          = (if k._enable_tnr_yuv = 0 then k0._enable_tnr_yuv else k._enable_tnr_yuv) := by
        rw [hfl, ← hentry]
      have hbound : k1._enable_tnr_yuv ≤ 1 := by
        rw [hfl]; exact max_le hreq hle
      refine ⟨hval, ?_, ?_, ?_⟩
      · intro b hb
        subst hb
        exact (bound_flag_and_prev hcall).2.1
      · rw [hval] at hbound ⊢
        split_ifs at hbound ⊢ with h0 <;> omega
      · intro hno
        rw [hfl, requested_of_no_set _ mid hno, max_self]

/-- Witness of C14: the flag is enabled before the first bind and not touched afterwards;
the second bind gives argument 14 the value 1, the flag `s` held at the first bind. -/
theorem C14_first_frame_override_restoration_witness :
    ∃ k0 k k1 b,
      admitted [Call.set_tnr_enable false true] = []
      ∧ run true (.new 0) [.set_tnr_enable false true] = .ok k0
      ∧ run true k0
          [.prepare_arguments (some (sample_buffer 1 true)) (some (sample_buffer 11 true)),
            .post_execute] = .ok k
      ∧ prepare_arguments true k (some (sample_buffer 2 true)) (some (sample_buffer 12 true))
          = .ok (k1, .XCAM_RETURN_NO_ERROR, some b)
      ∧ k0._enable_tnr_yuv = 1 ∧ k._enable_tnr_yuv = 0
      ∧ b.args[14]? = some (.u32 1)
      ∧ (k1._enable_tnr_yuv
            = (if k._enable_tnr_yuv = 0 then k0._enable_tnr_yuv else k._enable_tnr_yuv)
        ∧ (∀ b1, some b = some b1 → b1.args[14]? = some (.u32 k1._enable_tnr_yuv))
        ∧ (k1._enable_tnr_yuv = 1 ↔ (k._enable_tnr_yuv = 1 ∨ k0._enable_tnr_yuv = 1))
        ∧ ((∀ rgb yuv, Call.set_tnr_enable rgb yuv ∉ [Call.post_execute])
            → k1._enable_tnr_yuv = k0._enable_tnr_yuv)) :=
  ⟨_, _, _, _, rfl, rfl, rfl, rfl, rfl, rfl, rfl,
    C14_first_frame_override_restoration true 0 [.set_tnr_enable false true] [.post_execute]
      (some (sample_buffer 1 true)) (some (sample_buffer 11 true))
      (some (sample_buffer 2 true)) (some (sample_buffer 12 true)) _ _ _
      .XCAM_RETURN_NO_ERROR _ rfl rfl rfl rfl⟩

/-- The kernel after a `prepare_arguments` call that returns. -/
theorem prepare_arguments_state {asserts : Bool} {k k1 : CLYuvPipeImageKernel}
    {input output : Option DrmBoBuffer} {r : XCamReturn × Option Binding}
    (hcall : prepare_arguments asserts k input output = .ok (k1, r)) :
    ∃ out, output = some out ∧ k1 = first_frame_override (load_frame k input out) := by
  cases output with
  | none => simp [prepare_arguments] at hcall
  | some out =>
    refine ⟨out, rfl, ?_⟩
    rw [prepare_arguments_some] at hcall
    split_ifs at hcall <;>
      simp only [Except.ok.injEq, Prod.mk.injEq] at hcall <;> exact hcall.1.symm

theorem admit_frame_getLast? (l : List CLImage) (img : CLImage) :
    (admit_frame l img).getLast? = some img := by
  unfold admit_frame
  split_ifs with h
  · simp only [fill_loop, if_pos h]
    split_ifs <;> simp
  · simp

/-- C15: a `prepare_arguments` call that returns `XCAM_RETURN_ERROR_MEM` binds nothing,
had an invalid input or output image, and has all the same admitted its input image into
the frame history; if no previous output was in place (the first call), it has stored the
output image of the failed frame as previous output, saved the YUV flag and left 0 in its
place. The next call that succeeds, made at once or after `post_execute`, then binds the
saved flag as argument 14, not 0, and the output image of the failed frame as
argument 1. -/
theorem C15_failed_bind_not_atomic (asserts : Bool) (k k1 : CLYuvPipeImageKernel)
    (input1 output1 : Option DrmBoBuffer) (ob : Option Binding)
    (hfail : prepare_arguments asserts k input1 output1
      = .ok (k1, .XCAM_RETURN_ERROR_MEM, ob)) :
    ob = none
    ∧ ((CLVaImage.new input1).is_valid = false ∨ (CLVaImage.new output1).is_valid = false)
    ∧ k1._image_in_list = admit_frame k._image_in_list (CLVaImage.new input1)
    ∧ k1._image_in_list.getLast? = some (CLVaImage.new input1)
    ∧ (k._image_out_prev = none →
        k1._image_out_prev = some (CLVaImage.new output1)
        ∧ k1._enable_tnr_yuv_state = k._enable_tnr_yuv
        ∧ k1._enable_tnr_yuv = 0
        ∧ ∀ ks, (ks = k1 ∨ post_execute k1 = .ok (ks, .XCAM_RETURN_NO_ERROR)) →
            ∀ input2 output2 k2 ret b,
              prepare_arguments asserts ks input2 output2 = .ok (k2, ret, some b) →
                b.args[14]? = some (.u32 k._enable_tnr_yuv)
                ∧ b.args[1]? = some (.mem (CLVaImage.new output1).get_mem_id)
                ∧ k2._image_out_prev = some (CLVaImage.new output1)) := by
  have hhist := prepare_arguments_history hfail
  cases output1 with
  | none => simp [prepare_arguments] at hfail
  | some out =>
    rw [prepare_arguments_some] at hfail
    split_ifs at hfail with hv ha
    · simp at hfail
    simp only [Except.ok.injEq, Prod.mk.injEq, true_and] at hfail
    obtain ⟨hk1, hob⟩ := hfail
    have hinv : (CLVaImage.new input1).is_valid = false
        ∨ (CLVaImage.new (some out)).is_valid = false := by
      cases hi : (CLVaImage.new input1).is_valid <;>
        cases ho : (CLVaImage.new (some out)).is_valid <;> simp_all
    refine ⟨hob.symm, hinv, hhist, by rw [hhist]; exact admit_frame_getLast? _ _, ?_⟩
    intro hprev
    have f1 : k1._image_out_prev = some (CLVaImage.new (some out)) := by
      rw [← hk1]; simp [first_frame_override, load_frame, hprev]
    have f2 : k1._enable_tnr_yuv_state = k._enable_tnr_yuv := by
      rw [← hk1]; simp [first_frame_override, load_frame, hprev]
    have f3 : k1._enable_tnr_yuv = 0 := by
      rw [← hk1]; simp [first_frame_override, load_frame, hprev]
    have f4 : k1._image_out = some (CLVaImage.new (some out)) := by
      rw [← hk1, (first_frame_override_frame _).2.1]; rfl
    refine ⟨f1, f2, f3, ?_⟩
    intro ks hks input2 output2 k2 ret b hcall
    have hs : ks._image_out_prev = some (CLVaImage.new (some out))
        ∧ ks._enable_tnr_yuv_state = k._enable_tnr_yuv ∧ ks._enable_tnr_yuv = 0 := by
      rcases hks with h | h
      · subst h; exact ⟨f1, f2, f3⟩
      · simp only [post_execute, f4, Except.ok.injEq, Prod.mk.injEq, and_true] at h
        by_cases hv2 : (CLVaImage.new (some out)).is_valid = true
        · rw [if_pos hv2] at h
          subst h
          exact ⟨rfl, f2, f3⟩
        · rw [if_neg hv2] at h
          subst h
          exact ⟨f1, f2, f3⟩
    obtain ⟨hp, hst, hen⟩ := hs
    obtain ⟨out2, _, hk2⟩ := prepare_arguments_state hcall
    obtain ⟨_, h14, p, hpp, h1⟩ := bound_flag_and_prev hcall
    have g1 : k2._enable_tnr_yuv = k._enable_tnr_yuv := by
      rw [hk2]; simp [first_frame_override, load_frame, hp, hen, hst]
    have g2 : k2._image_out_prev = some (CLVaImage.new (some out)) := by
      rw [hk2]; simp [first_frame_override, load_frame, hp, hen]
    rw [g2] at hpp
    simp only [Option.some.injEq] at hpp
    subst hpp
    exact ⟨by rw [h14, g1], h1, g2⟩

/-- Witness of C15: with assertions compiled out and the YUV flag enabled, the first call
fails on an invalid output image; the next call succeeds and binds the flag 1 as
argument 14 and the image of the failed frame, of identity 11, as argument 1. -/
theorem C15_failed_bind_not_atomic_witness :
    ∃ k1 k2 b,
      prepare_arguments false (set_tnr_enable (.new 0) false true).1
          (some (sample_buffer 1 true)) (some (sample_buffer 11 false))
        = .ok (k1, .XCAM_RETURN_ERROR_MEM, none)
      ∧ prepare_arguments false k1 (some (sample_buffer 2 true)) (some (sample_buffer 12 true))
        = .ok (k2, .XCAM_RETURN_NO_ERROR, some b)
      ∧ b.args[14]? = some (.u32 1)
      ∧ b.args[1]? = some (.mem 11)
      ∧ k1._image_in_list.map CLImage.get_mem_id = [1, 1, 1, 1]
      ∧ ((none : Option Binding) = none
        ∧ ((CLVaImage.new (some (sample_buffer 1 true))).is_valid = false
            ∨ (CLVaImage.new (some (sample_buffer 11 false))).is_valid = false)
        ∧ k1._image_in_list
            = admit_frame (set_tnr_enable (.new 0) false true).1._image_in_list
                (CLVaImage.new (some (sample_buffer 1 true)))
        ∧ k1._image_in_list.getLast? = some (CLVaImage.new (some (sample_buffer 1 true)))
        ∧ ((set_tnr_enable (.new 0) false true).1._image_out_prev = none →
            k1._image_out_prev = some (CLVaImage.new (some (sample_buffer 11 false)))
            ∧ k1._enable_tnr_yuv_state = (set_tnr_enable (.new 0) false true).1._enable_tnr_yuv
            ∧ k1._enable_tnr_yuv = 0
            ∧ ∀ ks, (ks = k1 ∨ post_execute k1 = .ok (ks, .XCAM_RETURN_NO_ERROR)) →
                ∀ input2 output2 k2 ret b,
                  prepare_arguments false ks input2 output2 = .ok (k2, ret, some b) →
                    b.args[14]?
                        = some (.u32 (set_tnr_enable (.new 0) false true).1._enable_tnr_yuv)
                    ∧ b.args[1]?
                        = some (.mem (CLVaImage.new (some (sample_buffer 11 false))).get_mem_id)
                    ∧ k2._image_out_prev
                        = some (CLVaImage.new (some (sample_buffer 11 false))))) :=
  ⟨_, _, _, rfl, rfl, rfl, rfl, rfl,
    C15_failed_bind_not_atomic false (set_tnr_enable (.new 0) false true).1 _
      (some (sample_buffer 1 true)) (some (sample_buffer 11 false)) none rfl⟩

end XCam
